import Mathlib

/-!
Verification of the Tuo La Ji (Sheng Ji / Tractor) rules engine.

This file is a shallow embedding, in Lean 4, of the rules-engine core of
`tuolaji.py`: the card model, the `TrumpSystem` classification/ordering,
the `CardCombo` detection/decomposition and follow rules, the `Trick`
winner resolution and the `GameState` round state machine.  Every
definition mirrors the corresponding Python function; Python `dict`s
(which preserve insertion order) are modelled by association lists that
preserve first-occurrence key order, Python `int` arithmetic by `Int`
where subtraction may occur, and Python's `list.remove` / `in` (value
equality) by `List.erase` / `List.contains`.  The Python decomposition
uses object identity (`id`) for its `used` set; on lists of pairwise
distinct cards - the only inputs the engine ever feeds it, since physical
cards are distinct - value equality coincides with identity, and the
embedding uses value equality.
-/

/-- The four ordinary suits, in the Python `SUITS = ["♣","♦","♥","♠"]` order. -/
inductive OSuit where
  | clubs | diamonds | hearts | spades
deriving DecidableEq, Repr, Fintype

/-- The thirteen ranks, in the Python `RANKS` order, "2" .. "A". -/
inductive Rank where
  | r2 | r3 | r4 | r5 | r6 | r7 | r8 | r9 | r10 | rJ | rQ | rK | rA
deriving DecidableEq, Repr, Fintype

/-- `RANK_VAL`: position of a rank in `RANKS` ("2" → 0 … "A" → 12). -/
def RANK_VAL : Rank → Nat
  | .r2 => 0 | .r3 => 1 | .r4 => 2 | .r5 => 3 | .r6 => 4 | .r7 => 5 | .r8 => 6
  | .r9 => 7 | .r10 => 8 | .rJ => 9 | .rQ => 10 | .rK => 11 | .rA => 12

/-- The `SUITS` list. -/
def SUITS : List OSuit := [.clubs, .diamonds, .hearts, .spades]

/-- `SUITS.index`, used by `card_order`. -/
def suitIndex : OSuit → Nat
  | .clubs => 0 | .diamonds => 1 | .hearts => 2 | .spades => 3

/-- A playing card.  Python represents jokers as cards whose `suit` (and
`rank`) is a sentinel string `"SJ"`/`"BJ"`; here they are separate
constructors.  `deckId` distinguishes the two physical copies. -/
inductive Card where
  | ord (suit : OSuit) (rank : Rank) (deckId : Nat)
  | sj (deckId : Nat)
  | bj (deckId : Nat)
deriving DecidableEq, Repr

namespace Card

def is_joker : Card → Bool
  | .ord _ _ _ => false
  | _ => true

def is_big_joker : Card → Bool
  | .bj _ => true
  | _ => false

def is_small_joker : Card → Bool
  | .sj _ => true
  | _ => false

/-- `POINT_VALUES.get(rank, 0)`: "5" → 5, "10" → 10, "K" → 10, else 0
(jokers have a sentinel rank not in `POINT_VALUES`). -/
def point_value : Card → Nat
  | .ord _ .r5 _ => 5
  | .ord _ .r10 _ => 10
  | .ord _ .rK _ => 10
  | _ => 0

/-- Python compares `card.rank` directly; for a joker that attribute holds
the `"SJ"`/`"BJ"` sentinel, so two cards have equal `rank` exactly here. -/
def rawRankEq : Card → Card → Bool
  | .ord _ r _, .ord _ r₂ _ => r = r₂
  | .sj _, .sj _ => true
  | .bj _, .bj _ => true
  | _, _ => false

/-- `RANK_VAL[card.rank]` for an ordinary card.  In the source this lookup
is only reached for non-joker cards; the joker value here is arbitrary. -/
def rankV : Card → Nat
  | .ord _ r _ => RANK_VAL r
  | _ => 0

/-- `card.suit` of a non-joker card.  In the source this is only read off
cards already filtered to be non-jokers; the joker value is arbitrary. -/
def suitOrd : Card → OSuit
  | .ord s _ _ => s
  | _ => .spades

end Card

/-- An effective suit: either the merged `"TRUMP"` group or a plain suit. -/
inductive ESuit where
  | trumpE
  | plain (s : OSuit)
deriving DecidableEq, Repr

/-- Stable insertion step: place `a` before the first element `b` with
`le a b`. -/
def insertSorted {α : Type} (le : α → α → Bool) (a : α) : List α → List α
  | [] => [a]
  | b :: l => if le a b then a :: b :: l else b :: insertSorted le a l

/-- Stable sort (insertion sort).  With a total preorder `le` this agrees
with Python `sorted` (any two stable sorts coincide); it is structurally
recursive, so concrete instances evaluate inside the kernel. -/
def sortBy {α : Type} (le : α → α → Bool) (l : List α) : List α :=
  l.foldr (insertSorted le) []

/-- `TrumpSystem(trump_suit, trump_rank)`. -/
structure TrumpSystem where
  trump_suit : OSuit
  trump_rank : Rank
deriving DecidableEq, Repr, Fintype

namespace TrumpSystem

/-- `is_trump`: jokers, any card of the trump rank, any card of the trump suit. -/
def is_trump (t : TrumpSystem) : Card → Bool
  | .sj _ => true
  | .bj _ => true
  | .ord s r _ => r = t.trump_rank || s = t.trump_suit

/-- `effective_suit`: `"TRUMP"` for trump cards, else the card's own suit. -/
def effective_suit (t : TrumpSystem) (c : Card) : ESuit :=
  if t.is_trump c then .trumpE else .plain c.suitOrd

/-- The list `[s for s in SUITS if s != trump_suit]` used to order the
trump-rank cards of non-trump suits. -/
def nonTrumpSuits (t : TrumpSystem) : List OSuit :=
  SUITS.filter (fun s => s ≠ t.trump_suit)

/-- `trump_order`: ordering within the merged trump suit.  The source
raises for a non-trump card; that branch is unreachable at every call
site (all guarded by `is_trump`) and returns 0 here. -/
def trump_order (t : TrumpSystem) : Card → Nat
  | .bj _ => 1000
  | .sj _ => 999
  | .ord s r _ =>
    if s = t.trump_suit ∧ r = t.trump_rank then 998
    else if r = t.trump_rank then 500 + t.nonTrumpSuits.indexOf s
    else if s = t.trump_suit then RANK_VAL r
    else 0

/-- `card_order`: universal sort key (trump above everything, non-trump
grouped by suit then rank). -/
def card_order (t : TrumpSystem) (c : Card) : Nat :=
  if t.is_trump c then 2000 + t.trump_order c
  else suitIndex c.suitOrd * 100 + c.rankV

/-- `beats(challenger, incumbent, led_suit)`. -/
def beats (t : TrumpSystem) (challenger incumbent : Card) (led_suit : ESuit) : Bool :=
  let c_trump := t.is_trump challenger
  let i_trump := t.is_trump incumbent
  let c_suit := t.effective_suit challenger
  let i_suit := t.effective_suit incumbent
  if c_suit = i_suit then
    if c_trump && i_trump then t.trump_order challenger > t.trump_order incumbent
    else challenger.rankV > incumbent.rankV
  else if c_trump && !i_trump then true
  else if c_suit = led_suit && !(i_suit = led_suit) && !(i_suit = .trumpE) then true
  else false

/-- `sort_hand`: stable sort by `card_order`, descending. -/
def sort_hand (t : TrumpSystem) (hand : List Card) : List Card :=
  sortBy (fun a b => t.card_order b ≤ t.card_order a) hand

end TrumpSystem

/-! ### Ordered grouping (Python `dict.setdefault`)

Python dicts preserve insertion order.  `groupByKey` reproduces
`for x in l: groups.setdefault(key(x), []).append(x)`: keys appear in
first-occurrence order, each bucket in encounter order. -/

/-- Append `a` to the bucket of key `k`, creating the bucket at the end
if the key is new (Python `dict.setdefault(k, []).append(a)`). -/
def insertGroup {κ α : Type} [DecidableEq κ] (k : κ) (a : α) :
    List (κ × List α) → List (κ × List α)
  | [] => [(k, [a])]
  | (k₂, as) :: rest =>
    if k = k₂ then (k₂, as ++ [a]) :: rest else (k₂, as) :: insertGroup k a rest

/-- Group a list by a key, preserving Python dict insertion order. -/
def groupByKey {κ α : Type} [DecidableEq κ] (key : α → κ) (l : List α) :
    List (κ × List α) :=
  l.foldl (fun acc a => insertGroup (key a) a acc) []

/-- The order value the combo machinery groups by:
`trump.trump_order(c) if trump.is_trump(c) else RANK_VAL[c.rank]`. -/
def order_of (t : TrumpSystem) (c : Card) : Nat :=
  if t.is_trump c then t.trump_order c else c.rankV

/-- Split a list into maximal runs where the key of each element is
exactly one more than the key of its predecessor — the `i`/`j` scanning
loop used throughout the source (always applied to sorted lists of
distinct keys, where `a[j] - a[j-1] == 1` in Python coincides with the
truncated `Nat` subtraction used here). -/
def splitRunsBy {α : Type} (f : α → Nat) : List α → List (List α)
  | [] => []
  | [a] => [[a]]
  | a :: b :: rest =>
    match splitRunsBy f (b :: rest) with
    | [] => [[a]]
    | run :: runs =>
      if f b - f a = 1 then (a :: run) :: runs else [a] :: run :: runs

/-- `ComboType`. -/
inductive ComboType where
  | single | pair | tractor | multi
deriving DecidableEq, Repr

/-- `CardCombo._try_tractor`: even size ≥ 4, every order appearing exactly
twice, sorted orders forming a run of consecutive values. -/
def tryTractor (t : TrumpSystem) (cards : List Card) : Bool :=
  if cards.length < 4 || cards.length % 2 != 0 then false
  else
    let groups := groupByKey (order_of t) cards
    if groups.any (fun g => g.2.length != 2) then false
    else
      let orders := sortBy (fun a b => a ≤ b) (groups.map Prod.fst)
      (splitRunsBy id orders).length = 1

/-- First pass of `CardCombo._decompose`: `pairs_by_suit`, mapping each
suit to the `(order, cs[:2])` entries of its groups of size ≥ 2, in
insertion order. -/
def pairsBySuitOf (groups : List ((ESuit × Nat) × List Card)) :
    List (ESuit × List (Nat × List Card)) :=
  groups.foldl
    (fun acc g =>
      if 2 ≤ g.2.length then insertGroup g.1.1 (g.1.2, g.2.take 2) acc else acc)
    []

/-- Second pass of `CardCombo._decompose`: per suit, sort the pair list
by order and keep runs of length ≥ 2 as tractor components. -/
def tractorCompsOf (pbs : List (ESuit × List (Nat × List Card))) :
    List (List Card) :=
  pbs.foldl
    (fun acc sp =>
      let runs := splitRunsBy Prod.fst (sortBy (fun a b => a.1 ≤ b.1) sp.2)
      acc ++ (runs.filter (fun run => 2 ≤ run.length)).map
        (fun run => (run.map Prod.snd).flatten))
    []

/-- Third pass of `CardCombo._decompose`: group heads `cs[:2]` not used
by a tractor become pair components. -/
def pairCompsOf (groups : List ((ESuit × Nat) × List Card))
    (used₁ : List Card) : List (List Card) :=
  groups.foldl
    (fun acc g =>
      if 2 ≤ g.2.length then
        let pair := (g.2.take 2).filter (fun c => ¬ used₁.contains c)
        if pair.length = 2 then acc ++ [pair] else acc
      else acc)
    []

/-- Final pass of `CardCombo._decompose`: every unused card becomes a
singleton component. -/
def singleCompsOf (groups : List ((ESuit × Nat) × List Card))
    (used₂ : List Card) : List (List Card) :=
  groups.foldl
    (fun acc g =>
      acc ++ (g.2.filter (fun c => ¬ used₂.contains c)).map (fun c => [c]))
    []

/-- `CardCombo._decompose`: break cards into tractors, then pairs, then
singles.  The Python `used` set holds object ids; on pairwise-distinct
cards (the only inputs the engine produces) this equals value membership,
used here. -/
def decompose (t : TrumpSystem) (cards : List Card) : List (List Card) :=
  let groups := groupByKey (fun c => (t.effective_suit c, order_of t c)) cards
  let pairs_by_suit := pairsBySuitOf groups
  let tractorComps := tractorCompsOf pairs_by_suit
  let used₁ : List Card := tractorComps.flatten
  let pairComps := pairCompsOf groups used₁
  let used₂ : List Card := used₁ ++ pairComps.flatten
  let singleComps := singleCompsOf groups used₂
  let components := tractorComps ++ pairComps ++ singleComps
  if components.isEmpty then [cards] else components

/-- `CardCombo._detect`: classify a card list and compute its components. -/
def detect (t : TrumpSystem) (cards : List Card) : ComboType × List (List Card) :=
  let n := cards.length
  if n = 1 then (.single, [cards])
  else
    let oneSuit :=
      match cards with
      | [] => false
      | c :: rest => rest.all (fun d => t.effective_suit d = t.effective_suit c)
    let directPair :=
      oneSuit && n = 2 &&
      (match cards with
       | [a, b] =>
         a.rawRankEq b ||
         (t.is_trump a && t.is_trump b && t.trump_order a = t.trump_order b)
       | _ => false)
    if directPair then (.pair, [cards])
    else if oneSuit && tryTractor t cards then (.tractor, [cards])
    else
      let components := decompose t cards
      if components.length = 1 && (components.headD []).length = n then
        if n = 2 then (.pair, components) else (.tractor, components)
      else (.multi, components)

/-- `CardCombo`: a play together with its detected type and components.
The Python object also stores its `TrumpSystem`; so does this one. -/
structure CardCombo where
  cards : List Card
  trump : TrumpSystem
  type : ComboType
  components : List (List Card)
deriving DecidableEq, Repr

/-- The `CardCombo(cards, trump)` constructor. -/
def CardCombo.make (cards : List Card) (t : TrumpSystem) : CardCombo :=
  let d := detect t cards
  ⟨cards, t, d.1, d.2⟩

/-- `CardCombo.top_card`: `max(cards, key=card_order)` — the first card
attaining the maximal `card_order` (Python `max` keeps the earliest). -/
def CardCombo.top_card (combo : CardCombo) : Card :=
  match combo.cards with
  | [] => .sj 0   -- unreachable: combos are built from nonempty plays
  | c :: rest =>
    rest.foldl
      (fun best d =>
        if combo.trump.card_order best < combo.trump.card_order d then d else best)
      c

/-- `CardCombo.effective_suit()`: the effective suit of the first card. -/
def CardCombo.effSuit (combo : CardCombo) : ESuit :=
  combo.trump.effective_suit (combo.cards.headD (.sj 0))

/-- `CardCombo.is_valid_lead`: nonempty and a single effective suit. -/
def is_valid_lead (cards : List Card) (t : TrumpSystem) : Bool × String :=
  match cards with
  | [] => (false, "No cards selected.")
  | c :: rest =>
    if rest.all (fun d => t.effective_suit d = t.effective_suit c) then (true, "")
    else (false, "A lead must be all one suit.")

/-! ### Follow-suit obligations -/

/-- The result dict of `required_follow_structure`.  Counts follow Python
`int` arithmetic, hence `Int`.  The void-in-suit early return of the
source omits the `_avail`/`_hand_in_suit` keys; they are only read when
`total > 0`, so the zero/empty defaults here are never observable. -/
structure FollowReq where
  tractors : Int
  pair_cards : Int
  singles : Int
  total : Int
  avail_tractor_pairs : Int
  avail_free_pairs : Int
  hand_in_suit : List Card
deriving DecidableEq, Repr

/-- Orders at which the pool holds ≥ 2 cards, sorted ascending:
`sorted([o for o, cs in suit_groups.items() if len(cs) >= 2])`. -/
def pairOrdersOf (t : TrumpSystem) (pool : List Card) : List Nat :=
  sortBy (fun a b => a ≤ b)
    (((groupByKey (order_of t) pool).filter (fun g => 2 ≤ g.2.length)).map
      Prod.fst)

/-- Number of pairs consumed by consecutive runs of length ≥ 2 (the
`tractor_pair_count` scan). -/
def tractorPairCount (pairOrders : List Nat) : Nat :=
  (((splitRunsBy id pairOrders).filter (fun run => 2 ≤ run.length)).map
    List.length).sum

/-- The orders marked `used_in_tractor` by that scan. -/
def usedInTractor (pairOrders : List Nat) : List Nat :=
  ((splitRunsBy id pairOrders).filter (fun run => 2 ≤ run.length)).flatten

/-- Pairs not used in tractors:
`sum(1 for o in pair_orders if o not in used_in_tractor)`. -/
def freePairCount (pairOrders : List Nat) : Nat :=
  pairOrders.countP (fun o => ¬ (usedInTractor pairOrders).contains o)

/-- `CardCombo.required_follow_structure(led, hand, trump)`. -/
def CardCombo.required_follow_structure (led : CardCombo) (hand : List Card)
    (t : TrumpSystem) : FollowReq :=
  let led_suit := led.effSuit
  let n_lead : Int := led.cards.length
  let hand_in_suit := hand.filter (fun c => t.effective_suit c = led_suit)
  let n_in_suit : Int := hand_in_suit.length
  if hand_in_suit.length = 0 then ⟨0, 0, 0, 0, 0, 0, []⟩
  else
    let pair_orders := pairOrdersOf t hand_in_suit
    let tractor_pair_count : Int := tractorPairCount pair_orders
    let free_pair_count : Int := freePairCount pair_orders
    -- lead components sorted largest first
    let lead_components := sortBy (fun a b => b.length ≤ a.length) led.components
    let demand_tractor_pairs : Int :=
      (lead_components.foldl
        (fun acc comp => if 4 ≤ comp.length then acc + comp.length / 2 else acc) 0 : Nat)
    let demand_pairs₀ : Int :=
      (lead_components.countP (fun comp => ¬ 4 ≤ comp.length && comp.length = 2) : Nat)
    let demand_singles₀ : Int :=
      (lead_components.countP (fun comp => ¬ 4 ≤ comp.length && ¬ comp.length = 2) : Nat)
    let supplied_tractor_pairs := min tractor_pair_count demand_tractor_pairs
    let remaining_tractor_demand := demand_tractor_pairs - supplied_tractor_pairs
    let demand_pairs := demand_pairs₀ + remaining_tractor_demand
    let supplied_pairs := min free_pair_count demand_pairs
    let remaining_pair_demand := demand_pairs - supplied_pairs
    let demand_singles := demand_singles₀ + remaining_pair_demand * 2
    let committed := supplied_tractor_pairs * 2 + supplied_pairs * 2
    let remaining_suit_cards := n_in_suit - committed
    let supplied_singles := min remaining_suit_cards demand_singles
    let total := min (min (committed + supplied_singles) n_in_suit) n_lead
    ⟨supplied_tractor_pairs * 2, supplied_pairs * 2, supplied_singles, total,
     tractor_pair_count, free_pair_count, hand_in_suit⟩

/-- `CardCombo.is_valid_follow(cards, led, hand, trump)`. -/
def CardCombo.is_valid_follow (cards : List Card) (led : CardCombo)
    (hand : List Card) (t : TrumpSystem) : Bool × String :=
  let n_needed := led.cards.length
  if cards.length ≠ n_needed then
    (false, "Must play exactly " ++ toString n_needed ++ " card(s).")
  else
    let led_suit := led.effSuit
    let play_in_suit := cards.filter (fun c => t.effective_suit c = led_suit)
    let req := CardCombo.required_follow_structure led hand t
    if (play_in_suit.length : Int) < req.total then
      (false, "You must play " ++ toString req.total ++
        " card(s) of the led suit - you played " ++ toString play_in_suit.length ++ ".")
    else if req.total ≤ (play_in_suit.length : Int) && 0 < req.total then
      let played_pair_orders := pairOrdersOf t play_in_suit
      let played_tractor_pairs : Int := tractorPairCount played_pair_orders
      let played_free_pairs : Int := freePairCount played_pair_orders
      let required_tp := req.tractors / 2
      if played_tractor_pairs < required_tp then
        (false, "You must play " ++ toString required_tp ++
          " tractor pair(s) from the led suit - you have them but did not play them.")
      else
        let required_fp := req.pair_cards / 2
        if played_free_pairs < required_fp then
          (false, "You must play " ++ toString required_fp ++
            " pair(s) from the led suit - you have them but played a non-pair instead.")
        else (true, "")
    else (true, "")

/-- Look up the bucket of an order in a `groupByKey` result
(Python `g[o]`; the call sites only look up present keys). -/
def lookupGroup (g : List (Nat × List Card)) (o : Nat) : List Card :=
  ((g.find? (fun gr => gr.1 = o)).map Prod.snd).getD []

/-- `CardCombo.build_valid_follow(led, hand, trump)`: greedy constructive
follow — tractors, then free pairs (highest first), then lowest singles,
then lowest off-suit fill. -/
def CardCombo.build_valid_follow (led : CardCombo) (hand : List Card)
    (t : TrumpSystem) : List Card :=
  let n_needed := led.cards.length
  let led_suit := led.effSuit
  let hand_in_suit := hand.filter (fun c => t.effective_suit c = led_suit)
  let req := CardCombo.required_follow_structure led hand t
  -- state: (chosen, remaining); take_cards appends and removes by value
  let take_cards (st : List Card × List Card) (cs : List Card) :
      List Card × List Card :=
    (st.1 ++ cs, cs.foldl List.erase st.2)
  let st₀ : List Card × List Card := ([], hand_in_suit)
  -- Step 1: tractors
  let need_tractor_pairs := (req.tractors / 2).toNat
  let st₁ :=
    if 0 < need_tractor_pairs then
      let g := groupByKey (order_of t) st₀.2
      let pair_orders :=
        sortBy (fun a b => a ≤ b)
          ((g.filter (fun gr => 2 ≤ gr.2.length)).map Prod.fst)
      let runs := splitRunsBy id pair_orders
      (runs.foldl
        (fun (acc : (List Card × List Card) × Nat) run =>
          if 2 ≤ run.length ∧ acc.2 < need_tractor_pairs then
            let pairs_to_take := min run.length (need_tractor_pairs - acc.2)
            ((run.take pairs_to_take).foldl
               (fun st o => take_cards st ((lookupGroup g o).take 2)) acc.1,
             acc.2 + pairs_to_take)
          else acc)
        (st₀, 0)).1
    else st₀
  -- Step 2: free pairs, highest order first
  let need_free_pairs := (req.pair_cards / 2).toNat
  let st₂ :=
    if 0 < need_free_pairs then
      let g := groupByKey (order_of t) st₁.2
      let pair_orders :=
        sortBy (fun a b => b ≤ a)
          ((g.filter (fun gr => 2 ≤ gr.2.length)).map Prod.fst)
      (pair_orders.take need_free_pairs).foldl
        (fun st o => take_cards st ((lookupGroup g o).take 2)) st₁
    else st₁
  -- Step 3: lowest singles from the led suit
  let need_singles := req.singles.toNat
  let st₃ :=
    if 0 < need_singles then
      let singles := sortBy (fun a b => order_of t a ≤ order_of t b) st₂.2
      take_cards st₂ (singles.take need_singles)
    else st₂
  -- Step 4: fill with lowest off-suit cards
  let chosen := st₃.1
  let still_need := n_needed - chosen.length
  let chosen₂ :=
    if 0 < still_need then
      let off_suit :=
        hand.filter (fun c => ¬ chosen.contains c && ¬ hand_in_suit.contains c)
      let off_suit_sorted :=
        sortBy (fun a b => t.card_order a ≤ t.card_order b) off_suit
      chosen ++ off_suit_sorted.take still_need
    else chosen
  chosen₂.take n_needed

/-! ### Trick -/

/-- `Trick._match_components`: split a play into chunks of the template's
sizes, each chunk greedily taking the highest-`card_order` cards left. -/
def matchComponents (t : TrumpSystem) (cards : List Card)
    (template : List (List Card)) : List (List Card) :=
  (template.foldl
    (fun (acc : List (List Card) × List Card) tcomp =>
      let chunk :=
        (sortBy (fun a b => t.card_order b ≤ t.card_order a) acc.2).take
          tcomp.length
      (acc.1 ++ [chunk], chunk.foldl List.erase acc.2))
    ([], cards)).1

/-- `Trick._component_beats(challenger, incumbent, led, led_suit)`. -/
def componentBeats (t : TrumpSystem) (challenger incumbent led : List Card)
    (led_suit : ESuit) : Bool :=
  let n := led.length
  let inc_combo := CardCombo.make incumbent t
  let chal_combo := CardCombo.make challenger t
  let chal_suit : Option ESuit :=
    challenger.head?.map (fun c => t.effective_suit c)
  -- `chal_suit not in (led_suit, "TRUMP")` — `None` is in neither
  if ¬ (chal_suit = some led_suit ∨ chal_suit = some .trumpE) then false
  else if n = 1 then
    t.beats (challenger.headD (.sj 0)) (incumbent.headD (.sj 0)) led_suit
  else if n = 2 then
    if chal_combo.type ≠ .pair then false
    else if inc_combo.type ≠ .pair then true
    else t.beats chal_combo.top_card inc_combo.top_card led_suit
  else
    if chal_combo.type ≠ .tractor then false
    else if inc_combo.type ≠ .tractor then true
    else t.beats chal_combo.top_card inc_combo.top_card led_suit

/-- `Trick._play_beats`: reject a play with no led-suit and no trump card,
else compare component-wise over the led template (in the led combo's
component order) and demand victory in every slot. -/
def playBeats (t : TrumpSystem) (challenger_cards incumbent_cards : List Card)
    (led_components : List (List Card)) (led_suit : ESuit) : Bool :=
  let c_suits := challenger_cards.map (fun c => t.effective_suit c)
  if ¬ (c_suits.contains led_suit || c_suits.contains .trumpE) then false
  else
    let c_comps := matchComponents t challenger_cards led_components
    let i_comps := matchComponents t incumbent_cards led_components
    ((c_comps.zip (i_comps.zip led_components)).all
      (fun trip => componentBeats t trip.1 trip.2.1 trip.2.2 led_suit))

/-- The `Trick` object: trump, leader, ordered plays, led combo. -/
structure TrickData where
  trump : TrumpSystem
  leader : Nat
  plays : List (Nat × List Card)
  led_combo : Option CardCombo
deriving DecidableEq, Repr

/-- `Trick.play(player_idx, cards)`. -/
def TrickData.play (tr : TrickData) (player_idx : Nat) (cards : List Card) :
    TrickData :=
  let combo := CardCombo.make cards tr.trump
  { tr with
    led_combo := if tr.plays.isEmpty then some combo else tr.led_combo,
    plays := tr.plays ++ [(player_idx, cards)] }

/-- `Trick.is_complete()`. -/
def TrickData.is_complete (tr : TrickData) : Bool := tr.plays.length = 4

/-- `Trick.winner()`: fold the later plays over the leading play with
`_play_beats`; the source asserts completeness, so the empty cases are
unreachable. -/
def TrickData.winner (tr : TrickData) : Nat :=
  match tr.led_combo, tr.plays with
  | some led, (p₀, c₀) :: rest =>
    let led_suit := led.effSuit
    let led_comps := led.components
    (rest.foldl
      (fun best pc =>
        if playBeats tr.trump pc.2 best.2 led_comps led_suit then pc else best)
      (p₀, c₀)).1
  | _, _ => 0

/-- `Trick.points()`. -/
def TrickData.points (tr : TrickData) : Nat :=
  ((tr.plays.map (fun pc => (pc.2.map Card.point_value).sum)).sum)

/-! ### Game state -/

/-- `GamePhase`. -/
inductive GamePhase where
  | dealing | kitty | playing | scoring
deriving DecidableEq, Repr

/-- `_bid_strength(cards, trump_rank)`: the declaration ladder
(0 = invalid bid).  `Int` because it is compared to and stored in the
Python-int `declaration_strength`. -/
def bid_strength (cards : List Card) (tr : Rank) : Int :=
  match cards with
  | [] => 0
  | [c] =>
    if c.is_big_joker then 5
    else if c.is_small_joker then 3
    else
      -- `c.rank == trump_rank` (c is not a joker in the reachable cases)
      match c with
      | .ord _ r _ => if r = tr then 1 else 0
      | _ => 0
  | [c₀, c₁] =>
    if c₀.is_big_joker && c₁.is_big_joker then 6
    else if c₀.is_small_joker && c₁.is_small_joker then 4
    else
      match c₀, c₁ with
      | .ord s₀ r₀ _, .ord s₁ r₁ _ =>
        if r₀ = tr && r₁ = tr && s₀ = s₁ then 2 else 0
      | _, _ => 0
  | _ => 0

/-- The `GameState` record.  (`team_levels`, read only by the surrounding
GUI/round driver, is omitted.) -/
structure GameState where
  num_players : Nat
  trump_rank : Rank
  declaration : Option (Nat × List Card)
  declaration_strength : Int
  declaring_player : Nat
  declaring_team : Nat
  trump_suit : OSuit
  trump : TrumpSystem
  hands : List (List Card)
  kitty : List Card
  phase : GamePhase
  current_player : Nat
  tricks : List TrickData
  current_trick : Option TrickData
  scores : List Int
  trick_winner_log : List (Nat × Nat)
  deck : List Card
  deal_idx : Nat
  cards_per_player : Nat
  kitty_start : Nat
deriving Repr

/-- `GameState.__init__` plus `_prepare_deck`, with the shuffled deck
passed in explicitly (shuffling is the only randomness). -/
def GameState.mk_init (deck : List Card) (num_players : Nat) (trump_rank : Rank)
    (declaring_team : Nat) : GameState :=
  { num_players := num_players
    trump_rank := trump_rank
    declaration := none
    declaration_strength := 0
    declaring_player := declaring_team * 2
    declaring_team := declaring_team
    trump_suit := .spades
    trump := ⟨.spades, trump_rank⟩
    hands := List.replicate num_players []
    kitty := []
    phase := .dealing
    current_player := 0
    tricks := []
    current_trick := none
    scores := [0, 0]
    trick_winner_log := []
    deck := deck
    deal_idx := 0
    cards_per_player := (deck.length - 8) / num_players
    kitty_start := ((deck.length - 8) / num_players) * num_players }

/-- `self.hands[i] = ...` (hands always holds `num_players` entries, so
index-update by `List.set` is exact). -/
def setHand (hands : List (List Card)) (i : Nat) (h : List Card) :
    List (List Card) :=
  hands.set i h

/-- `GameState._finalize_declaration`. -/
def GameState.finalize_declaration (g : GameState) : GameState :=
  let g₁ :=
    match g.declaration with
    | none =>
      { g with declaring_player := 0, declaring_team := 0, trump_suit := .spades }
    | some (player, cards) =>
      let base := { g with declaring_player := player, declaring_team := player % 2 }
      match cards.filter (fun c => !(Card.is_joker c)) with
      | [] => base
      | c :: _ => { base with trump_suit := c.suitOrd }
  let t : TrumpSystem := ⟨g₁.trump_suit, g₁.trump_rank⟩
  { g₁ with trump := t, hands := g₁.hands.map t.sort_hand }

/-- `GameState.deal_next_card()`: returns `(result, new_state)`. -/
def GameState.deal_next_card (g : GameState) : Option (Nat × Card) × GameState :=
  if g.kitty_start ≤ g.deal_idx then (none, g)
  else
    let player_idx := g.deal_idx % g.num_players
    let card := g.deck.getD g.deal_idx (.sj 0)
    let g₁ := { g with
      hands := setHand g.hands player_idx (g.hands.getD player_idx [] ++ [card])
      deal_idx := g.deal_idx + 1 }
    if g.kitty_start ≤ g.deal_idx + 1 then
      let g₂ := { g₁ with kitty := g.deck.drop g.kitty_start }.finalize_declaration
      (some (player_idx, card), { g₂ with phase := .kitty })
    else (some (player_idx, card), g₁)

/-- `GameState.is_dealing_done()`. -/
def GameState.is_dealing_done (g : GameState) : Bool :=
  g.kitty_start ≤ g.deal_idx

/-- `GameState.declare_trump(player_idx, cards)`: returns
`((accepted, message), new_state)`; every rejection leaves the state
untouched. -/
def GameState.declare_trump (g : GameState) (player_idx : Nat)
    (cards : List Card) : (Bool × String) × GameState :=
  if g.phase ≠ .dealing then
    ((false, "Can only declare during the dealing phase."), g)
  else if ¬ cards.all (fun c => (g.hands.getD player_idx []).contains c) then
    ((false, "You do not have those cards."), g)
  else
    let strength := bid_strength cards g.trump_rank
    if strength = 0 then
      ((false, "Declaration must be trump-rank cards of one suit, a joker, or a pair of the same."), g)
    else if strength ≤ g.declaration_strength then
      ((false, "Your bid does not beat the current declaration."), g)
    else
      let g₁ := { g with
        declaration := some (player_idx, cards), declaration_strength := strength }
      let g₂ :=
        match cards.filter (fun c => !(Card.is_joker c)) with
        | [] => g₁
        | c :: _ =>
          { g₁ with trump_suit := c.suitOrd, trump := ⟨c.suitOrd, g.trump_rank⟩ }
      ((true, "Declaration accepted!"), g₂)

/-- `GameState.bury_kitty(cards_to_bury)`: the source asserts
`len(cards_to_bury) == 8` and each removal must find its card. -/
def GameState.bury_kitty (g : GameState) (cards_to_bury : List Card) : GameState :=
  let player_idx := g.declaring_player
  let enlarged := g.hands.getD player_idx [] ++ g.kitty
  let new_hand := cards_to_bury.foldl List.erase enlarged
  { g with
    hands := setHand g.hands player_idx new_hand
    kitty := cards_to_bury
    phase := .playing
    current_trick := some ⟨g.trump, player_idx, [], none⟩
    current_player := player_idx }

/-- `self.scores[team] += pts`. -/
def addScore (scores : List Int) (team : Nat) (pts : Int) : List Int :=
  scores.set team (scores.getD team 0 + pts)

/-- `GameState._all_cards_played()`. -/
def GameState.all_cards_played (g : GameState) : Bool :=
  g.hands.all (fun h => h.isEmpty)

/-- `GameState.play_cards(player_idx, cards)`: the source asserts
`player_idx == current_player` and `phase == PLAYING`, and dereferences
`current_trick` (never `None` in the playing phase). -/
def GameState.play_cards (g : GameState) (player_idx : Nat)
    (cards : List Card) : Option Nat × GameState :=
  let new_hand := cards.foldl List.erase (g.hands.getD player_idx [])
  let hands₁ := setHand g.hands player_idx new_hand
  match g.current_trick with
  | none => (none, { g with hands := hands₁ })
  | some tr =>
    let tr₁ := tr.play player_idx cards
    if tr₁.is_complete then
      let winner := tr₁.winner
      let pts : Int := tr₁.points
      let winning_team := winner % 2
      let g₁ := { g with
        hands := hands₁
        scores := addScore g.scores winning_team pts
        tricks := g.tricks ++ [tr₁]
        trick_winner_log := g.trick_winner_log ++ [(g.tricks.length, winner)]
        current_trick := some tr₁ }
      if g₁.all_cards_played then
        let kitty_pts : Int := (g.kitty.map Card.point_value).sum
        (some winner,
         { g₁ with
           scores := addScore g₁.scores winning_team kitty_pts
           phase := .scoring })
      else
        (some winner,
         { g₁ with
           current_trick := some ⟨g.trump, winner, [], none⟩
           current_player := winner })
    else
      (none, { g with
        hands := hands₁
        current_trick := some tr₁
        current_player := (player_idx + 1) % g.num_players })

/-- `GameState.defending_team()`. -/
def GameState.defending_team (g : GameState) : Nat := 1 - g.declaring_team

/-- `GameState.attacker_points()`. -/
def GameState.attacker_points (g : GameState) : Int :=
  g.scores.getD g.defending_team 0

/-- The outcome record returned by `compute_round_outcome`. -/
structure RoundOutcome where
  attacker_pts : Int
  attackers_win : Bool
  winner_team : Nat
  leveling_team : Nat
  level_delta : Nat
  def_team : Nat
  atk_team : Nat
deriving DecidableEq, Repr

/-- `GameState.compute_round_outcome()`. -/
def GameState.compute_round_outcome (g : GameState) : RoundOutcome :=
  let pts := g.attacker_points
  let def_team := g.declaring_team
  let atk_team := 1 - def_team
  -- the source assigns (attackers_win, level_delta, winner_team) per branch
  -- and always sets leveling_team = def_team when the attackers lose,
  -- atk_team when they win
  if pts < 40 then ⟨pts, false, def_team, def_team, 2, def_team, atk_team⟩
  else if pts < 80 then ⟨pts, false, def_team, def_team, 1, def_team, atk_team⟩
  else if pts < 120 then ⟨pts, true, atk_team, atk_team, 0, def_team, atk_team⟩
  else if pts < 160 then ⟨pts, true, atk_team, atk_team, 1, def_team, atk_team⟩
  else if pts < 200 then ⟨pts, true, atk_team, atk_team, 2, def_team, atk_team⟩
  else ⟨pts, true, atk_team, atk_team, 3, def_team, atk_team⟩

/-- The `RANKS` list. -/
def RANKS_LIST : List Rank :=
  [.r2, .r3, .r4, .r5, .r6, .r7, .r8, .r9, .r10, .rJ, .rQ, .rK, .rA]

/-- `make_deck()` for one deck id: 4 suits × 13 ranks, then the jokers. -/
def makeDeckList (deckId : Nat) : List Card :=
  (SUITS.map (fun s => RANKS_LIST.map (fun r => Card.ord s r deckId))).flatten ++
    [.sj deckId, .bj deckId]

/-- `make_double_deck()` before its shuffle: the 108 physical cards in
construction order (the shuffle is modelled by passing an arbitrary deck
to `GameState.mk_init`). -/
def makeDoubleDeck : List Card := makeDeckList 0 ++ makeDeckList 1

/-! ### Round trace semantics

One step per public mutating operation, with exactly the side conditions
under which the Python call completes (its `assert`s, in-phase protocol
use, and every `list.remove` finding its card — a violated condition
raises and no state change is observed). -/

/-- Total cards accounted to players, kitty and tricks (current and
archived): the quantity of the conservation property. -/
def trickCardCount (tr : TrickData) : Nat :=
  (tr.plays.map (fun pc => pc.2.length)).sum

/-- Sum of hand sizes + kitty size + cards played into tricks. -/
def GameState.totalAccounted (g : GameState) : Nat :=
  (g.hands.map List.length).sum + g.kitty.length +
    (g.tricks.map trickCardCount).sum +
    (match g.current_trick with
     | some tr => trickCardCount tr
     | none => 0)

/-- A completed public mutating operation. -/
inductive GStep : GameState → GameState → Prop
  | deal (g : GameState) :
      GStep g (g.deal_next_card).2
  | declare (g : GameState) (player_idx : Nat) (cards : List Card) :
      GStep g (g.declare_trump player_idx cards).2
  | bury (g : GameState) (cards : List Card)
      (hphase : g.phase = .kitty)
      (hlen : cards.length = 8)
      (hp : g.declaring_player < g.hands.length)
      (hsub : cards.Subperm (g.hands.getD g.declaring_player [] ++ g.kitty)) :
      GStep g (g.bury_kitty cards)
  | play (g : GameState) (player_idx : Nat) (cards : List Card)
      (hphase : g.phase = .playing)
      (hcur : player_idx = g.current_player)
      (hp : player_idx < g.hands.length)
      (htrick : g.current_trick.isSome)
      (hsub : cards.Subperm (g.hands.getD player_idx [])) :
      GStep g (g.play_cards player_idx cards).2

/-- Reachability along completed operations. -/
def GReach : GameState → GameState → Prop := Relation.ReflTransGen GStep

/-- Modelled from the spec (§4.4 wording): `_play_beats` with the led
template's components first sorted largest-first.  The source does not
sort; this definition exists to compare the spec's description with the
code's behavior. -/
def specPlayBeatsSortedTemplate (t : TrumpSystem)
    (challenger_cards incumbent_cards : List Card)
    (led_components : List (List Card)) (led_suit : ESuit) : Bool :=
  playBeats t challenger_cards incumbent_cards
    (sortBy (fun a b => b.length ≤ a.length) led_components) led_suit

/-- Concrete trick data for the winner analysis: a multi-component lead
whose decomposition is a 4-card tractor followed by a 6-card tractor
(sizes [4, 6], not largest-first). -/
def c3Lead : List Card :=
  [.ord .hearts .r3 0, .ord .hearts .r3 1, .ord .hearts .r4 0, .ord .hearts .r4 1,
   .ord .hearts .r6 0, .ord .hearts .r6 1, .ord .hearts .r7 0, .ord .hearts .r7 1,
   .ord .hearts .r8 0, .ord .hearts .r8 1]

/-- A follow whose four highest cards form a tractor and whose six lowest
cards form a tractor, but whose six highest cards do not. -/
def c3Challenger : List Card :=
  [.ord .hearts .rA 0, .ord .hearts .rA 1, .ord .hearts .rK 0, .ord .hearts .rK 1,
   .ord .hearts .rJ 0, .ord .hearts .rJ 1, .ord .hearts .r10 0, .ord .hearts .r10 1,
   .ord .hearts .r9 0, .ord .hearts .r9 1]

/-- Ten clubs (an off-suit discard for the third player). -/
def c3Off₁ : List Card :=
  [.ord .clubs .r3 0, .ord .clubs .r3 1, .ord .clubs .r4 0, .ord .clubs .r4 1,
   .ord .clubs .r5 0, .ord .clubs .r5 1, .ord .clubs .r6 0, .ord .clubs .r6 1,
   .ord .clubs .r7 0, .ord .clubs .r7 1]

/-- Ten more clubs (an off-suit discard for the fourth player). -/
def c3Off₂ : List Card :=
  [.ord .clubs .r8 0, .ord .clubs .r8 1, .ord .clubs .r9 0, .ord .clubs .r9 1,
   .ord .clubs .r10 0, .ord .clubs .r10 1, .ord .clubs .rJ 0, .ord .clubs .rJ 1,
   .ord .clubs .rQ 0, .ord .clubs .rQ 1]

/-- The complete concrete trick built through `Trick.play`. -/
def c3Trick : TrickData :=
  (((TrickData.play ⟨⟨.spades, .r2⟩, 0, [], none⟩ 0 c3Lead).play 1 c3Challenger).play
      2 c3Off₁).play 3 c3Off₂

/-- A concrete lead for the follow-construction analysis: a 3-pair
tractor ♥9♥9♥10♥10♥J♥J. -/
def c8Lead : List Card :=
  [.ord .hearts .r9 0, .ord .hearts .r9 1, .ord .hearts .r10 0,
   .ord .hearts .r10 1, .ord .hearts .rJ 0, .ord .hearts .rJ 1]

/-- A hand holding two non-adjacent 2-pair runs in the led suit
(♥3♥3♥4♥4 and ♥7♥7♥8♥8) plus two clubs. -/
def c8Hand : List Card :=
  [.ord .hearts .r3 0, .ord .hearts .r3 1, .ord .hearts .r4 0,
   .ord .hearts .r4 1, .ord .hearts .r7 0, .ord .hearts .r7 1,
   .ord .hearts .r8 0, .ord .hearts .r8 1, .ord .clubs .r5 0,
   .ord .clubs .r6 0]

/-- The conserved-state invariant carried along a round: structural
facts about a 4-player 108-card round, and the accounting facts per
phase (during DEALING the accounted cards equal the cards dealt so far;
from KITTY on they equal 108). -/
def GInv (g : GameState) : Prop :=
  g.num_players = 4 ∧ g.hands.length = 4 ∧ g.kitty_start = 100 ∧
  g.deck.length = 108 ∧
  (g.phase = .dealing → g.deal_idx < 100 ∧ g.kitty = [] ∧
    g.current_trick = none ∧ g.totalAccounted = g.deal_idx) ∧
  (g.phase ≠ .dealing → 100 ≤ g.deal_idx) ∧
  (g.phase = .kitty → g.current_trick = none) ∧
  ((g.phase = .kitty ∨ g.phase = .playing) → g.totalAccounted = 108)

/-- Iterate `deal_next_card` (used to exhibit a concrete post-dealing
state). -/
def dealIter : Nat → GameState → GameState
  | 0, g => g
  | n + 1, g => dealIter n (g.deal_next_card).2

/-- The pairs of trump cards that actually sit at adjacent order values
(`order b = order a + 1`) under the code's numbering: consecutive
trump-suit non-trump ranks; non-trump-suit trump-rank cards at adjacent
positions of the suit rotation; the trump-suit trump-rank card followed
by the small joker; the small joker followed by the big joker. -/
def bandAdjacent (t : TrumpSystem) : Card → Card → Prop
  | .ord s r _, .ord s' r' _ =>
    (s = t.trump_suit ∧ s' = t.trump_suit ∧ r ≠ t.trump_rank ∧ r' ≠ t.trump_rank ∧
      RANK_VAL r' = RANK_VAL r + 1) ∨
    (r = t.trump_rank ∧ r' = t.trump_rank ∧ s ≠ t.trump_suit ∧ s' ≠ t.trump_suit ∧
      t.nonTrumpSuits.indexOf s' = t.nonTrumpSuits.indexOf s + 1)
  | .ord s r _, .sj _ => s = t.trump_suit ∧ r = t.trump_rank
  | .sj _, .bj _ => True
  | _, _ => False

instance bandAdjacent.decide (t : TrumpSystem) :
    (a b : Card) → Decidable (bandAdjacent t a b)
  | .ord _ _ _, .ord _ _ _ => inferInstanceAs (Decidable (_ ∨ _))
  | .ord _ _ _, .sj _ => inferInstanceAs (Decidable (_ ∧ _))
  | .ord _ _ _, .bj _ => isFalse (fun h => h)
  | .sj _, .ord _ _ _ => isFalse (fun h => h)
  | .sj _, .sj _ => isFalse (fun h => h)
  | .sj _, .bj _ => isTrue trivial
  | .bj _, .ord _ _ _ => isFalse (fun h => h)
  | .bj _, .sj _ => isFalse (fun h => h)
  | .bj _, .bj _ => isFalse (fun h => h)

/-- One of the six valid declaration shapes of the bid-strength ladder,
with its strength. -/
def ladderShape (tr : Rank) (cards : List Card) (s : Int) : Prop :=
  (∃ su d, cards = [.ord su tr d] ∧ s = 1) ∨
  (∃ su d e, cards = [.ord su tr d, .ord su tr e] ∧ s = 2) ∨
  (∃ d, cards = [.sj d] ∧ s = 3) ∨
  (∃ d e, cards = [.sj d, .sj e] ∧ s = 4) ∨
  (∃ d, cards = [.bj d] ∧ s = 5) ∨
  (∃ d e, cards = [.bj d, .bj e] ∧ s = 6)

/-! ### C1: the trump_order band sequence -/

/-- C1 (counterexample).  The spec places the trump-suit card of trump
rank *below* every non-trump-suit card of trump rank; in the code it is
above them (998 vs 500–502).  With trump ♠2, `trump_order(♠2) = 998` is
not less than `trump_order(♣2) = 500`. -/
theorem C1_spec_band_order_counterexample :
    ¬ ((⟨.spades, .r2⟩ : TrumpSystem).trump_order (.ord .spades .r2 0) <
       (⟨.spades, .r2⟩ : TrumpSystem).trump_order (.ord .clubs .r2 0)) := by
  decide

/-- C1 (amended).  `trump_order` realizes the band sequence, low to high:
trump-suit cards of non-trump rank (ordered by rank), then every
non-trump-suit card of trump rank (ordered among themselves by the fixed
suit rotation), then the trump-suit card of trump rank, then the small
joker, then the big joker; and the order value of a card never depends on
its deck copy. -/
theorem C1_trump_order_bands :
    (∀ (t : TrumpSystem) (s : OSuit) (r : Rank) (d : Nat),
        t.trump_order (.ord s r d) = t.trump_order (.ord s r 0)) ∧
    ∀ t : TrumpSystem,
      (∀ r r' : Rank, r ≠ t.trump_rank → r' ≠ t.trump_rank →
        (RANK_VAL r < RANK_VAL r' ↔
          t.trump_order (.ord t.trump_suit r 0) <
            t.trump_order (.ord t.trump_suit r' 0))) ∧
      (∀ (r : Rank) (s : OSuit), r ≠ t.trump_rank → s ≠ t.trump_suit →
        t.trump_order (.ord t.trump_suit r 0) <
          t.trump_order (.ord s t.trump_rank 0)) ∧
      (∀ s s' : OSuit, s ≠ t.trump_suit → s' ≠ t.trump_suit →
        (t.nonTrumpSuits.indexOf s < t.nonTrumpSuits.indexOf s' ↔
          t.trump_order (.ord s t.trump_rank 0) <
            t.trump_order (.ord s' t.trump_rank 0))) ∧
      (∀ s : OSuit, s ≠ t.trump_suit →
        t.trump_order (.ord s t.trump_rank 0) <
          t.trump_order (.ord t.trump_suit t.trump_rank 0)) ∧
      (t.trump_order (.ord t.trump_suit t.trump_rank 0) < t.trump_order (.sj 0)) ∧
      (t.trump_order (.sj 0) < t.trump_order (.bj 0)) := by
  refine ⟨fun t s r d => rfl, ?_⟩
  decide

/-- C1 (witness for the amended theorem): the band inequalities at trump
♠2, e.g. the off-suit 2♣ sits below the trump-suit 2♠. -/
theorem C1_trump_order_bands_witness :
    (OSuit.clubs ≠ OSuit.spades) ∧
    (⟨.spades, .r2⟩ : TrumpSystem).trump_order (.ord .clubs .r2 0) <
      (⟨.spades, .r2⟩ : TrumpSystem).trump_order (.ord .spades .r2 0) :=
  ⟨by decide,
   (C1_trump_order_bands.2 ⟨.spades, .r2⟩).2.2.2.1 .clubs (by decide)⟩

/-! ### C2: which trump cards are consecutive -/

/-- C2 (counterexample).  The spec says the trump-suit trump-rank card is
consecutive only with the immediately lower trump-suit rank, and jokers
only with each other.  In the code the trump-suit trump-rank card (998)
and the small joker (999) are consecutive, and `_try_tractor` accepts the
pair ♠2♠2 plus pair SJ SJ as a tractor. -/
theorem C2_adjacency_counterexample :
    (⟨.spades, .r2⟩ : TrumpSystem).trump_order (.sj 0) =
      (⟨.spades, .r2⟩ : TrumpSystem).trump_order (.ord .spades .r2 0) + 1 ∧
    tryTractor ⟨.spades, .r2⟩
      [.ord .spades .r2 0, .ord .spades .r2 1, .sj 0, .sj 1] = true := by
  decide

/-- Every rank value is at most 12. -/
theorem RANK_VAL_le (x : Rank) : RANK_VAL x ≤ 12 := by cases x <;> decide

/-- The non-trump suit rotation has exactly three entries. -/
theorem nonTrumpSuits_length (t : TrumpSystem) : t.nonTrumpSuits.length = 3 := by
  rcases t with ⟨ts, tr⟩
  cases ts <;> rfl

/-- An index into the non-trump suit rotation is at most 3. -/
theorem nonTrumpSuits_indexOf_le (t : TrumpSystem) (u : OSuit) :
    t.nonTrumpSuits.indexOf u ≤ 3 := by
  have h := List.indexOf_le_length (a := u) (l := t.nonTrumpSuits)
  rw [nonTrumpSuits_length] at h
  exact h

/-- Adjacency of two ordinary trump cards, fully characterized. -/
theorem bandAdjacent_ord_ord (t : TrumpSystem) (s : OSuit) (r : Rank)
    (s' : OSuit) (r' : Rank)
    (ha : r = t.trump_rank ∨ s = t.trump_suit)
    (hb : r' = t.trump_rank ∨ s' = t.trump_suit) :
    (t.trump_order (.ord s' r' 0) = t.trump_order (.ord s r 0) + 1 ↔
      bandAdjacent t (.ord s r 0) (.ord s' r' 0)) := by
  have v1 := RANK_VAL_le r
  have v2 := RANK_VAL_le r'
  have i1 := nonTrumpSuits_indexOf_le t s
  have i2 := nonTrumpSuits_indexOf_le t s'
  show ((if s' = t.trump_suit ∧ r' = t.trump_rank then 998
         else if r' = t.trump_rank then 500 + t.nonTrumpSuits.indexOf s'
         else if s' = t.trump_suit then RANK_VAL r' else 0) =
        (if s = t.trump_suit ∧ r = t.trump_rank then 998
         else if r = t.trump_rank then 500 + t.nonTrumpSuits.indexOf s
         else if s = t.trump_suit then RANK_VAL r else 0) + 1) ↔
       ((s = t.trump_suit ∧ s' = t.trump_suit ∧ r ≠ t.trump_rank ∧
          r' ≠ t.trump_rank ∧ RANK_VAL r' = RANK_VAL r + 1) ∨
        (r = t.trump_rank ∧ r' = t.trump_rank ∧ s ≠ t.trump_suit ∧
          s' ≠ t.trump_suit ∧
          t.nonTrumpSuits.indexOf s' = t.nonTrumpSuits.indexOf s + 1))
  by_cases h1 : s = t.trump_suit <;> by_cases h2 : r = t.trump_rank <;>
    by_cases h3 : s' = t.trump_suit <;> by_cases h4 : r' = t.trump_rank <;>
    first
      | (exact absurd ha (not_or.mpr ⟨h2, h1⟩))
      | (exact absurd hb (not_or.mpr ⟨h4, h3⟩))
      | (simp [h1, h2, h3, h4] <;> omega)

set_option maxHeartbeats 1000000 in
/-- C2 (amended).  Two trump cards sit at consecutive order values (the
"differ by exactly 1" relation that `_try_tractor` tests) exactly in
these cases: consecutive trump-suit non-trump ranks; non-trump-suit
trump-rank cards at adjacent suit-rotation positions; the trump-suit
trump-rank card and the small joker; the small joker and the big joker.
In particular the trump-suit trump-rank card is *not* consecutive with
the immediately lower trump-suit rank. -/
theorem C2_trump_order_adjacency :
    ∀ (t : TrumpSystem) (a b : Card), t.is_trump a → t.is_trump b →
      (t.trump_order b = t.trump_order a + 1 ↔ bandAdjacent t a b) := by
  have hos : ∀ (t : TrumpSystem) (s : OSuit) (r : Rank), t.is_trump (.ord s r 0) →
      ((999 : Nat) = t.trump_order (.ord s r 0) + 1 ↔
        bandAdjacent t (.ord s r 0) (.sj 0)) := by decide
  have hob : ∀ (t : TrumpSystem) (s : OSuit) (r : Rank), t.is_trump (.ord s r 0) →
      ((1000 : Nat) = t.trump_order (.ord s r 0) + 1 ↔
        bandAdjacent t (.ord s r 0) (.bj 0)) := by decide
  have hso : ∀ (t : TrumpSystem) (s : OSuit) (r : Rank), t.is_trump (.ord s r 0) →
      (t.trump_order (.ord s r 0) = 999 + 1 ↔
        bandAdjacent t (.sj 0) (.ord s r 0)) := by decide
  have hbo : ∀ (t : TrumpSystem) (s : OSuit) (r : Rank), t.is_trump (.ord s r 0) →
      (t.trump_order (.ord s r 0) = 1000 + 1 ↔
        bandAdjacent t (.bj 0) (.ord s r 0)) := by decide
  have hss : ∀ t : TrumpSystem,
      ((999 : Nat) = 999 + 1 ↔ bandAdjacent t (.sj 0) (.sj 0)) := by decide
  have hsb : ∀ t : TrumpSystem,
      ((1000 : Nat) = 999 + 1 ↔ bandAdjacent t (.sj 0) (.bj 0)) := by decide
  have hbs : ∀ t : TrumpSystem,
      ((999 : Nat) = 1000 + 1 ↔ bandAdjacent t (.bj 0) (.sj 0)) := by decide
  have hbb : ∀ t : TrumpSystem,
      ((1000 : Nat) = 1000 + 1 ↔ bandAdjacent t (.bj 0) (.bj 0)) := by decide
  intro t a b ha hb
  cases a <;> cases b
  case ord.ord s r d s' r' d' =>
    have ha' : r = t.trump_rank ∨ s = t.trump_suit := by
      simpa [TrumpSystem.is_trump, Bool.or_eq_true, decide_eq_true_eq] using ha
    have hb' : r' = t.trump_rank ∨ s' = t.trump_suit := by
      simpa [TrumpSystem.is_trump, Bool.or_eq_true, decide_eq_true_eq] using hb
    exact bandAdjacent_ord_ord t s r s' r' ha' hb'
  case ord.sj s r d d' => exact hos t s r ha
  case ord.bj s r d d' => exact hob t s r ha
  case sj.ord d s r d' => exact hso t s r hb
  case sj.sj d d' => exact hss t
  case sj.bj d d' => exact hsb t
  case bj.ord d s r d' => exact hbo t s r hb
  case bj.sj d d' => exact hbs t
  case bj.bj d d' => exact hbb t

/-! ### C9: round outcome thresholds -/

/-- C9.  `compute_round_outcome` maps attacker points to the thresholds:
< 40 → attackers lose, delta 2; 40–79 → lose, delta 1; 80–119 → win,
delta 0; 120–159 → win, delta 1; 160–199 → win, delta 2; ≥ 200 → win,
delta 3; the winner and leveling team are the declaring team exactly when
the attackers lose, and the other team when they win. -/
theorem C9_round_outcome_thresholds (g : GameState) (o : RoundOutcome)
    (ho : o = g.compute_round_outcome) :
    (g.attacker_points < 40 → o.attackers_win = false ∧ o.level_delta = 2) ∧
    (40 ≤ g.attacker_points → g.attacker_points < 80 →
      o.attackers_win = false ∧ o.level_delta = 1) ∧
    (80 ≤ g.attacker_points → g.attacker_points < 120 →
      o.attackers_win = true ∧ o.level_delta = 0) ∧
    (120 ≤ g.attacker_points → g.attacker_points < 160 →
      o.attackers_win = true ∧ o.level_delta = 1) ∧
    (160 ≤ g.attacker_points → g.attacker_points < 200 →
      o.attackers_win = true ∧ o.level_delta = 2) ∧
    (200 ≤ g.attacker_points →
      o.attackers_win = true ∧ o.level_delta = 3) ∧
    (o.attackers_win = false →
      o.winner_team = g.declaring_team ∧ o.leveling_team = g.declaring_team) ∧
    (o.attackers_win = true →
      o.winner_team = 1 - g.declaring_team ∧
        o.leveling_team = 1 - g.declaring_team) := by
  subst ho
  unfold GameState.compute_round_outcome
  dsimp only
  split_ifs <;> simp_all <;> omega

/-- C9 (witness): at 80 attacker points the attackers win with no level
change. -/
theorem C9_round_outcome_thresholds_witness :
    (80 : Int) ≤ ({ (GameState.mk_init [] 4 .r2 0) with
        scores := [0, 80] } : GameState).attacker_points ∧
    ({ (GameState.mk_init [] 4 .r2 0) with
        scores := [0, 80] } : GameState).attacker_points < 120 ∧
    ({ (GameState.mk_init [] 4 .r2 0) with
        scores := [0, 80] } : GameState).compute_round_outcome.attackers_win = true ∧
    ({ (GameState.mk_init [] 4 .r2 0) with
        scores := [0, 80] } : GameState).compute_round_outcome.level_delta = 0 := by
  refine ⟨by decide, by decide, ?_⟩
  have h := C9_round_outcome_thresholds
    ({ (GameState.mk_init [] 4 .r2 0) with scores := [0, 80] } : GameState)
    _ rfl
  exact (h.2.2.1 (by decide) (by decide))

/-! ### C10: ties in `beats` -/

/-- `effective_suit c = TRUMP` exactly for trump cards. -/
theorem effective_suit_eq_trumpE (t : TrumpSystem) (c : Card) :
    t.effective_suit c = .trumpE ↔ t.is_trump c = true := by
  unfold TrumpSystem.effective_suit
  split
  · simp_all
  · simp_all

/-- C10 (part 1 helper): equal-strength cards of one effective-suit group
never beat each other. -/
theorem beats_tie_false (t : TrumpSystem) (a b : Card) (led : ESuit)
    (hsuit : t.effective_suit a = t.effective_suit b)
    (htie : (t.is_trump a = true ∧ t.is_trump b = true ∧
              t.trump_order a = t.trump_order b) ∨
            (t.is_trump a = false ∧ t.is_trump b = false ∧ a.rankV = b.rankV)) :
    t.beats a b led = false ∧ t.beats b a led = false := by
  unfold TrumpSystem.beats
  rcases htie with ⟨ha, hb, hkey⟩ | ⟨ha, hb, hkey⟩ <;>
    simp [hsuit, ha, hb, hkey]

/-- A membership bound for the trick fold: the running best is the
initial play or one of the folded plays. -/
theorem winnerFold_mem (t : TrumpSystem) (comps : List (List Card))
    (suit : ESuit) :
    ∀ (rest : List (Nat × List Card)) (init : Nat × List Card),
      (rest.foldl
        (fun best pc =>
          if playBeats t pc.2 best.2 comps suit then pc else best) init) = init ∨
      (rest.foldl
        (fun best pc =>
          if playBeats t pc.2 best.2 comps suit then pc else best) init) ∈ rest := by
  intro rest
  induction rest with
  | nil => intro init; left; rfl
  | cons x xs ih =>
    intro init
    have step :
        (if playBeats t x.2 init.2 comps suit then x else init) = x ∨
        (if playBeats t x.2 init.2 comps suit then x else init) = init := by
      split
      · exact Or.inl rfl
      · exact Or.inr rfl
    rcases ih (if playBeats t x.2 init.2 comps suit then x else init) with h | h
    · rw [List.foldl_cons, h]
      rcases step with h₂ | h₂
      · right; rw [h₂]; exact List.mem_cons_self x xs
      · left; exact h₂
    · right
      rw [List.foldl_cons]
      exact List.mem_cons_of_mem x h

/-- C10.  Tie behavior of the single-card comparison: two cards of one
effective-suit group and equal strength (equal `trump_order` for trump
cards, equal rank value for non-trump cards — in particular the two deck
copies of one card) never beat each other in either direction, for every
led suit; consequently, in a complete trick whose second play is a single
of strength identical to the led single, the second player never
dethrones the leader and never wins the trick. -/
theorem C10_beats_tie_retains_earlier :
    (∀ (t : TrumpSystem) (a b : Card) (led : ESuit),
      t.effective_suit a = t.effective_suit b →
      ((t.is_trump a = true ∧ t.is_trump b = true ∧
          t.trump_order a = t.trump_order b) ∨
        (t.is_trump a = false ∧ t.is_trump b = false ∧ a.rankV = b.rankV)) →
      t.beats a b led = false ∧ t.beats b a led = false) ∧
    (∀ (t : TrumpSystem) (s : OSuit) (r : Rank) (d d' : Nat) (led : ESuit),
      t.beats (.ord s r d) (.ord s r d') led = false) ∧
    (∀ (t : TrumpSystem) (p₀ p₁ p₂ p₃ : Nat) (a b : Card)
        (c₂ c₃ : List Card),
      t.effective_suit b = t.effective_suit a →
      ((t.is_trump b = true ∧ t.is_trump a = true ∧
          t.trump_order b = t.trump_order a) ∨
        (t.is_trump b = false ∧ t.is_trump a = false ∧ b.rankV = a.rankV)) →
      p₁ ≠ p₀ → p₁ ≠ p₂ → p₁ ≠ p₃ →
      TrickData.winner
        ⟨t, p₀, [(p₀, [a]), (p₁, [b]), (p₂, c₂), (p₃, c₃)],
          some (CardCombo.make [a] t)⟩ ≠ p₁) := by
  refine ⟨beats_tie_false, ?_, ?_⟩
  · intro t s r d d' led
    have h :=
      beats_tie_false t (.ord s r d) (.ord s r d') led rfl ?_
    · exact h.1
    · by_cases ht : t.is_trump (.ord s r d) = true
      · exact Or.inl ⟨ht, ht, rfl⟩
      · exact Or.inr ⟨Bool.not_eq_true _ ▸ (by simpa using ht), by simpa using ht, rfl⟩
  · intro t p₀ p₁ p₂ p₃ a b c₂ c₃ hsuit htie h₀ h₂ h₃
    have hbf : t.beats b a ((CardCombo.make [a] t).effSuit) = false :=
      (beats_tie_false t b a _ hsuit htie).1
    unfold TrickData.winner
    simp only []
    -- first fold step: the tying single does not dethrone the leader
    have heff : t.effective_suit b = (CardCombo.make [a] t).effSuit := hsuit
    have hmc : componentBeats t [b] [a] [a]
        ((CardCombo.make [a] t).effSuit) = false := by
      simp [componentBeats, heff, hbf]
    have hpb : playBeats t [b] [a] (CardCombo.make [a] t).components
        ((CardCombo.make [a] t).effSuit) = false := by
      have hcomps : (CardCombo.make [a] t).components = [[a]] := rfl
      rw [hcomps]
      simp [playBeats, heff, matchComponents, sortBy, insertSorted, hmc]
    rw [List.foldl_cons, if_neg (by simp [hpb])]
    have hmem := winnerFold_mem t (CardCombo.make [a] t).components
      ((CardCombo.make [a] t).effSuit) [(p₂, c₂), (p₃, c₃)] (p₀, [a])
    rcases hmem with h | h
    · rw [h]; exact Ne.symm h₀
    · simp only [List.mem_cons, List.not_mem_nil, or_false] at h
      rcases h with h | h
      · rw [h]; exact Ne.symm h₂
      · rw [h]; exact Ne.symm h₃

/-- C10 (witness): the two deck copies of ♥K tie; in a trick led with
♥K(0), a second player answering with the copy ♥K(1) does not win. -/
theorem C10_beats_tie_retains_earlier_witness :
    (⟨.spades, .r2⟩ : TrumpSystem).beats (.ord .hearts .rK 0)
      (.ord .hearts .rK 1) (.plain .hearts) = false ∧
    TrickData.winner
      ⟨⟨.spades, .r2⟩, 0,
        [(0, [.ord .hearts .rK 0]), (1, [.ord .hearts .rK 1]),
          (2, [.ord .clubs .r3 0]), (3, [.ord .clubs .r4 0])],
        some (CardCombo.make [.ord .hearts .rK 0] ⟨.spades, .r2⟩)⟩ ≠ 1 :=
  ⟨(C10_beats_tie_retains_earlier.1 ⟨.spades, .r2⟩ _ _ _ rfl
      (Or.inr ⟨by decide, by decide, rfl⟩)).1,
   C10_beats_tie_retains_earlier.2.2 ⟨.spades, .r2⟩ 0 1 2 3
      (.ord .hearts .rK 0) (.ord .hearts .rK 1) _ _ rfl
      (Or.inr ⟨by decide, by decide, rfl⟩)
      (by decide) (by decide) (by decide)⟩

/-! ### C7: trump declaration -/

/-- Every card list either has bid strength 0 or is one of the six ladder
shapes with the ladder's strength. -/
theorem bid_strength_shapes (tr : Rank) (cards : List Card) :
    bid_strength cards tr = 0 ∨ ladderShape tr cards (bid_strength cards tr) := by
  match cards with
  | [] => exact Or.inl rfl
  | [c] =>
    cases c with
    | ord s r d =>
      by_cases hr : r = tr
      · right
        exact Or.inl ⟨s, d, by rw [hr], by simp [bid_strength, Card.is_big_joker,
          Card.is_small_joker, hr]⟩
      · left
        simp [bid_strength, Card.is_big_joker, Card.is_small_joker, hr]
    | sj d => exact Or.inr (Or.inr (Or.inr (Or.inl ⟨d, rfl, rfl⟩)))
    | bj d => exact Or.inr (Or.inr (Or.inr (Or.inr (Or.inr (Or.inl ⟨d, rfl, rfl⟩)))))
  | [c₀, c₁] =>
    cases c₀ with
    | ord s₀ r₀ d₀ =>
      cases c₁ with
      | ord s₁ r₁ d₁ =>
        by_cases h : r₀ = tr ∧ r₁ = tr ∧ s₀ = s₁
        · right
          refine Or.inr (Or.inl ⟨s₀, d₀, d₁, ?_, ?_⟩)
          · rw [h.1, h.2.1, h.2.2]
          · simp [bid_strength, Card.is_big_joker, Card.is_small_joker,
              h.1, h.2.1, h.2.2]
        · left
          rcases Decidable.not_and_iff_or_not.mp h with h' | h'
          · simp [bid_strength, Card.is_big_joker, Card.is_small_joker, h']
          · rcases Decidable.not_and_iff_or_not.mp h' with h₂ | h₂ <;>
              simp [bid_strength, Card.is_big_joker, Card.is_small_joker, h₂]
      | sj d₁ => left; rfl
      | bj d₁ => left; rfl
    | sj d₀ =>
      cases c₁ with
      | ord s₁ r₁ d₁ => left; rfl
      | sj d₁ => exact Or.inr (Or.inr (Or.inr (Or.inr (Or.inl ⟨d₀, d₁, rfl, rfl⟩))))
      | bj d₁ => left; rfl
    | bj d₀ =>
      cases c₁ with
      | ord s₁ r₁ d₁ => left; rfl
      | sj d₁ => left; rfl
      | bj d₁ =>
        exact Or.inr (Or.inr (Or.inr (Or.inr (Or.inr (Or.inr ⟨d₀, d₁, rfl, rfl⟩)))))
  | c₀ :: c₁ :: c₂ :: rest => exact Or.inl rfl

/-- C7.  `declare_trump` accepts exactly when the phase is DEALING, every
submitted card is in the player's hand, and the bid strength (the fixed
ladder, 0 for invalid sets) strictly exceeds the current declaration
strength; every rejection returns the state unchanged; a fresh round
starts at declaration strength 0; and the ladder values are: single
trump-rank card 1, same-suit trump-rank pair 2, small joker 3, small
joker pair 4, big joker 5, big joker pair 6, everything else 0. -/
theorem C7_declare_trump_accepts_iff (g : GameState) (player_idx : Nat)
    (cards : List Card) (hnn : 0 ≤ g.declaration_strength) :
    ((g.declare_trump player_idx cards).1.1 = true ↔
      (g.phase = .dealing ∧
        (∀ c ∈ cards, c ∈ g.hands.getD player_idx []) ∧
        g.declaration_strength < bid_strength cards g.trump_rank)) ∧
    ((g.declare_trump player_idx cards).1.1 = false →
      (g.declare_trump player_idx cards).2 = g) ∧
    (∀ (deck : List Card) (np : Nat) (tr : Rank) (team : Nat),
      (GameState.mk_init deck np tr team).declaration_strength = 0) ∧
    (∀ (tr : Rank) (su : OSuit) (d e : Nat),
      bid_strength [.ord su tr d] tr = 1 ∧
      bid_strength [.ord su tr d, .ord su tr e] tr = 2 ∧
      bid_strength [.sj d] tr = 3 ∧
      bid_strength [.sj d, .sj e] tr = 4 ∧
      bid_strength [.bj d] tr = 5 ∧
      bid_strength [.bj d, .bj e] tr = 6) ∧
    (∀ (tr : Rank) (cs : List Card),
      bid_strength cs tr = 0 ∨ ladderShape tr cs (bid_strength cs tr)) := by
  have heval : (g.declare_trump player_idx cards).1.1 = true ↔
      (g.phase = .dealing ∧
        cards.all (fun c => (g.hands.getD player_idx []).contains c) = true ∧
        bid_strength cards g.trump_rank ≠ 0 ∧
        g.declaration_strength < bid_strength cards g.trump_rank) := by
    unfold GameState.declare_trump
    dsimp only
    split_ifs <;> simp_all
  refine ⟨?_, ?_, fun _ _ _ _ => rfl, ?_, bid_strength_shapes⟩
  · constructor
    · intro h
      obtain ⟨hph, hall, hne, hlt⟩ := heval.mp h
      exact ⟨hph, fun c hc => by simpa using List.all_eq_true.mp hall c hc, hlt⟩
    · rintro ⟨hph, hmem, hlt⟩
      exact heval.mpr ⟨hph,
        List.all_eq_true.mpr (fun c hc => by simpa using hmem c hc),
        by omega, hlt⟩
  · intro h
    unfold GameState.declare_trump
    unfold GameState.declare_trump at h
    dsimp only at h ⊢
    split_ifs at h ⊢ <;> rfl
  · intro tr su d e
    exact ⟨by simp [bid_strength, Card.is_big_joker, Card.is_small_joker],
      by simp [bid_strength, Card.is_big_joker, Card.is_small_joker],
      rfl, rfl, rfl, rfl⟩

/-- C7 (witness): in a concrete dealing-phase state holding 2♥, declaring
2♥ (strength 1 over 0) is accepted; on a rejected redeclaration the state
is unchanged. -/
theorem C7_declare_trump_accepts_iff_witness :
    ((0 : Int) ≤ ({ (GameState.mk_init [] 4 .r2 0) with
        hands := [[.ord .hearts .r2 0]] } : GameState).declaration_strength) ∧
    (({ (GameState.mk_init [] 4 .r2 0) with
        hands := [[.ord .hearts .r2 0]] } : GameState).declare_trump 0
          [.ord .hearts .r2 0]).1.1 = true :=
  ⟨by decide,
   ((C7_declare_trump_accepts_iff
      ({ (GameState.mk_init [] 4 .r2 0) with
          hands := [[.ord .hearts .r2 0]] } : GameState) 0
      [.ord .hearts .r2 0] (by decide)).1).mpr
     ⟨rfl, by decide, by decide⟩⟩

/-- C2 (witness): applying the adjacency characterization at the
trump-suit trump-rank card and the small joker under trump ♠2. -/
theorem C2_trump_order_adjacency_witness :
    (⟨.spades, .r2⟩ : TrumpSystem).is_trump (.ord .spades .r2 0) = true ∧
    ((⟨.spades, .r2⟩ : TrumpSystem).trump_order (.sj 0) =
      (⟨.spades, .r2⟩ : TrumpSystem).trump_order (.ord .spades .r2 0) + 1 ↔
        bandAdjacent ⟨.spades, .r2⟩ (.ord .spades .r2 0) (.sj 0)) :=
  ⟨by decide,
   C2_trump_order_adjacency ⟨.spades, .r2⟩ (.ord .spades .r2 0) (.sj 0)
     (by decide) (by decide)⟩

/-! ### C3: trick winner resolution -/

/-- A play with no led-suit card and no trump card loses to anything. -/
theorem playBeats_of_void (t : TrumpSystem) (cards : List Card)
    (comps : List (List Card)) (suit : ESuit)
    (h : ∀ c ∈ cards, t.effective_suit c ≠ suit ∧ t.effective_suit c ≠ .trumpE) :
    ∀ inc, playBeats t cards inc comps suit = false := by
  intro inc
  unfold playBeats
  dsimp only
  rw [if_pos]
  intro hcon
  simp only [Bool.or_eq_true] at hcon
  rcases hcon with hc | hc
  · have : suit ∈ cards.map (fun c => t.effective_suit c) := by simpa using hc
    rcases List.mem_map.mp this with ⟨c, hmem, heq⟩
    exact (h c hmem).1 heq
  · have : ESuit.trumpE ∈ cards.map (fun c => t.effective_suit c) := by simpa using hc
    rcases List.mem_map.mp this with ⟨c, hmem, heq⟩
    exact (h c hmem).2 heq

/-- If every folded play with player index `q` loses to everything, the
running best never carries index `q`. -/
theorem winnerFold_ne (t : TrumpSystem) (comps : List (List Card))
    (suit : ESuit) (q : Nat) :
    ∀ (rest : List (Nat × List Card)) (init : Nat × List Card),
      init.1 ≠ q →
      (∀ pc ∈ rest, pc.1 = q →
        ∀ inc, playBeats t pc.2 inc comps suit = false) →
      (rest.foldl
        (fun best pc =>
          if playBeats t pc.2 best.2 comps suit then pc else best) init).1 ≠ q := by
  intro rest
  induction rest with
  | nil => intro init hinit _; exact hinit
  | cons x xs ih =>
    intro init hinit hq
    rw [List.foldl_cons]
    apply ih
    · by_cases hx : x.1 = q
      · rw [hq x (List.mem_cons_self x xs) hx init.2]
        simpa using hinit
      · split
        · exact hx
        · exact hinit
    · intro pc hpc hpcq
      exact hq pc (List.mem_cons_of_mem x hpc) hpcq

/-- If no folded play beats the initial play, the fold returns it. -/
theorem winnerFold_stay (t : TrumpSystem) (comps : List (List Card))
    (suit : ESuit) :
    ∀ (rest : List (Nat × List Card)) (init : Nat × List Card),
      (∀ pc ∈ rest, playBeats t pc.2 init.2 comps suit = false) →
      (rest.foldl
        (fun best pc =>
          if playBeats t pc.2 best.2 comps suit then pc else best) init) = init := by
  intro rest
  induction rest with
  | nil => intro init _; rfl
  | cons x xs ih =>
    intro init h
    rw [List.foldl_cons, if_neg (by simp [h x (List.mem_cons_self x xs)])]
    exact ih init (fun pc hpc => h pc (List.mem_cons_of_mem x hpc))

/-- C3 (amended).  On a complete trick: (a) a non-leading play holding no
card of the led effective suit and no trump card is never the winner;
(b) a play dethrones the provisional best only if it wins every slot of
the led template — the led combo's components in their computed order,
not sorted largest-first; (c) the leading play is the initial provisional
best, and if no later play beats it the leader wins. -/
theorem C3_trick_winner_resolution :
    (∀ (t : TrumpSystem) (p₀ : Nat) (c₀ : List Card)
        (rest : List (Nat × List Card)) (q : Nat),
      q ≠ p₀ →
      (∀ pc ∈ rest, pc.1 = q → ∀ c ∈ pc.2,
        t.effective_suit c ≠ (CardCombo.make c₀ t).effSuit ∧
          t.effective_suit c ≠ .trumpE) →
      TrickData.winner
        ⟨t, p₀, (p₀, c₀) :: rest, some (CardCombo.make c₀ t)⟩ ≠ q) ∧
    (∀ (t : TrumpSystem) (chal inc : List Card) (comps : List (List Card))
        (suit : ESuit),
      playBeats t chal inc comps suit = true →
      ∀ trip ∈ (matchComponents t chal comps).zip
          ((matchComponents t inc comps).zip comps),
        componentBeats t trip.1 trip.2.1 trip.2.2 suit = true) ∧
    (∀ (t : TrumpSystem) (p₀ : Nat) (c₀ : List Card)
        (rest : List (Nat × List Card)),
      (∀ pc ∈ rest, playBeats t pc.2 c₀ (CardCombo.make c₀ t).components
        (CardCombo.make c₀ t).effSuit = false) →
      TrickData.winner
        ⟨t, p₀, (p₀, c₀) :: rest, some (CardCombo.make c₀ t)⟩ = p₀) := by
  refine ⟨?_, ?_, ?_⟩
  · intro t p₀ c₀ rest q hq hvoid
    unfold TrickData.winner
    dsimp only
    exact winnerFold_ne t _ _ q rest (p₀, c₀) (Ne.symm hq)
      (fun pc hpc hpcq =>
        playBeats_of_void t pc.2 _ _ (hvoid pc hpc hpcq))
  · intro t chal inc comps suit h trip htrip
    unfold playBeats at h
    dsimp only at h
    split_ifs at h
    exact List.all_eq_true.mp h trip htrip
  · intro t p₀ c₀ rest h
    unfold TrickData.winner
    dsimp only
    rw [winnerFold_stay t _ _ rest (p₀, c₀) h]

/-- C3 (witness): a void second player in a concrete trick cannot win;
nothing beats the ♥A single, so the leader of the fourth trick wins. -/
theorem C3_trick_winner_resolution_witness :
    ((1 : Nat) ≠ 0) ∧
    TrickData.winner
      ⟨⟨.spades, .r2⟩, 0,
        [(0, [.ord .hearts .rK 0]), (1, [.ord .clubs .r3 0]),
          (2, [.ord .hearts .rA 0]), (3, [.ord .diamonds .r4 0])],
        some (CardCombo.make [.ord .hearts .rK 0] ⟨.spades, .r2⟩)⟩ ≠ 1 :=
  ⟨by decide,
   C3_trick_winner_resolution.1 ⟨.spades, .r2⟩ 0 [.ord .hearts .rK 0]
     [(1, [.ord .clubs .r3 0]), (2, [.ord .hearts .rA 0]),
       (3, [.ord .diamonds .r4 0])] 1 (by decide) (by decide)⟩

/-- C3 (counterexample).  In the concrete trick `c3Trick` the second play
dethrones the leader and wins (the code compares slots in the led combo's
computed component order, sizes [4, 6]), yet under the spec's
largest-first template its six highest cards are not a tractor and it
loses a slot: dethroning is not characterized by the sorted template. -/
theorem C3_sorted_template_counterexample :
    c3Trick.winner = 1 ∧
    specPlayBeatsSortedTemplate ⟨.spades, .r2⟩ c3Challenger c3Lead
      (CardCombo.make c3Lead ⟨.spades, .r2⟩).components
      (CardCombo.make c3Lead ⟨.spades, .r2⟩).effSuit = false := by
  constructor
  · decide
  · decide

/-! ### C4: follow-suit pair protection -/

/-- Rank values are injective. -/
theorem RANK_VAL_inj : ∀ x y : Rank, RANK_VAL x = RANK_VAL y → x = y := by decide

/-- A card with a plain effective suit is not trump. -/
theorem effective_suit_plain (t : TrumpSystem) (c : Card) (s : OSuit)
    (h : t.effective_suit c = .plain s) : t.is_trump c = false := by
  by_contra hc
  have : t.is_trump c = true := by simpa using hc
  rw [(effective_suit_eq_trumpE t c).mpr this] at h
  cases h

/-- Two cards of one effective suit and order detect as a PAIR whose
single component is the card list itself. -/
theorem detect_pair (t : TrumpSystem) (l1 l2 : Card)
    (hsuit : t.effective_suit l2 = t.effective_suit l1)
    (horder : order_of t l1 = order_of t l2) :
    detect t [l1, l2] = (.pair, [[l1, l2]]) := by
  have hone : ([l2].all fun d => decide (t.effective_suit d = t.effective_suit l1)) = true := by
    simp [hsuit]
  have hflag : (l1.rawRankEq l2 ||
      (t.is_trump l1 && t.is_trump l2 &&
        decide (t.trump_order l1 = t.trump_order l2))) = true := by
    by_cases ht : t.is_trump l1 = true
    · have ht2 : t.is_trump l2 = true :=
        (effective_suit_eq_trumpE t l2).mp
          (hsuit.trans ((effective_suit_eq_trumpE t l1).mpr ht))
      have ho : t.trump_order l1 = t.trump_order l2 := by
        unfold order_of at horder
        rw [if_pos ht, if_pos ht2] at horder
        exact horder
      simp [ht, ht2, ho]
    · have ht1 : t.is_trump l1 = false := by simpa using ht
      have hp1 : t.effective_suit l1 = .plain l1.suitOrd := by
        unfold TrumpSystem.effective_suit
        rw [if_neg (by simp [ht1])]
      have ht2 : t.is_trump l2 = false := by
        have := effective_suit_plain t l2 l1.suitOrd (hsuit.trans hp1)
        exact this
      have hv : l1.rankV = l2.rankV := by
        unfold order_of at horder
        rw [if_neg (by simp [ht1]), if_neg (by simp [ht2])] at horder
        exact horder
      cases l1 with
      | ord s r d =>
        cases l2 with
        | ord s' r' d' =>
          have : r = r' := RANK_VAL_inj r r' (by simpa [Card.rankV] using hv)
          simp [Card.rawRankEq, this]
        | sj e => simp [TrumpSystem.is_trump] at ht2
        | bj e => simp [TrumpSystem.is_trump] at ht2
      | sj d => simp [TrumpSystem.is_trump] at ht1
      | bj d => simp [TrumpSystem.is_trump] at ht1
  unfold detect
  dsimp only
  rw [if_neg (by simp), if_pos]
  rw [List.length_cons, List.length_cons, List.length_nil]
  simp only [hone, hflag]
  simp

/-- Inserting into a sorted list is a permutation of consing. -/
theorem insertSorted_perm {α : Type} (le : α → α → Bool) (a : α) (l : List α) :
    (insertSorted le a l).Perm (a :: l) := by
  induction l with
  | nil => exact List.Perm.refl _
  | cons b bs ih =>
    unfold insertSorted
    split
    · exact List.Perm.refl _
    · exact ((ih.cons b).trans (List.Perm.swap a b bs))

/-- `sortBy` permutes its input. -/
theorem sortBy_perm {α : Type} (le : α → α → Bool) (l : List α) :
    (sortBy le l).Perm l := by
  induction l with
  | nil => exact List.Perm.refl _
  | cons a as ih =>
    exact (insertSorted_perm le a (sortBy le as)).trans (ih.cons a)

/-- Membership is preserved by `sortBy`. -/
theorem mem_sortBy {α : Type} (le : α → α → Bool) (l : List α) (x : α) :
    x ∈ sortBy le l ↔ x ∈ l :=
  (sortBy_perm le l).mem_iff

/-- `insertGroup` grows the total bucket size by one. -/
theorem insertGroup_len_sum {κ α : Type} [DecidableEq κ] (k : κ) (a : α)
    (acc : List (κ × List α)) :
    ((insertGroup k a acc).map (fun g => g.2.length)).sum =
      ((acc.map (fun g => g.2.length)).sum) + 1 := by
  induction acc with
  | nil => simp [insertGroup]
  | cons g gs ih =>
    unfold insertGroup
    rcases g with ⟨k₂, as⟩
    split
    · simp [List.map_cons]; omega
    · simp only [List.map_cons, List.sum_cons, ih]
      omega

/-- The bucket sizes of `groupByKey` sum to the input length. -/
theorem groupByKey_len_sum {κ α : Type} [DecidableEq κ] (key : α → κ)
    (l : List α) :
    ((groupByKey key l).map (fun g => g.2.length)).sum = l.length := by
  suffices h : ∀ (acc : List (κ × List α)),
      ((l.foldl (fun acc a => insertGroup (key a) a acc) acc).map
        (fun g => g.2.length)).sum =
      (acc.map (fun g => g.2.length)).sum + l.length by
    simpa using h []
  induction l with
  | nil => intro acc; simp
  | cons a as ih =>
    intro acc
    rw [List.foldl_cons, ih (insertGroup (key a) a acc), insertGroup_len_sum,
      List.length_cons]
    omega

/-- If the pool has a pair order, the pool holds at least two cards. -/
theorem two_le_of_pairOrders (t : TrumpSystem) (pool : List Card)
    (h : pairOrdersOf t pool ≠ []) : 2 ≤ pool.length := by
  rcases List.exists_mem_of_ne_nil _ h with ⟨o, ho⟩
  rw [pairOrdersOf, mem_sortBy] at ho
  rcases List.mem_map.mp ho with ⟨g, hg, -⟩
  rcases List.mem_filter.mp hg with ⟨hgmem, hglen⟩
  have hle : g.2.length ≤ ((groupByKey (order_of t) pool).map
      (fun g => g.2.length)).sum :=
    List.single_le_sum (by intro x _; exact Nat.zero_le x)
      _ (List.mem_map_of_mem (fun g => g.2.length) hgmem)
  rw [groupByKey_len_sum] at hle
  have : 2 ≤ g.2.length := by simpa using hglen
  omega

/-- A positive free-pair count needs a nonempty pair-order list. -/
theorem freePairCount_pos_ne_nil (P : List Nat) (h : 1 ≤ freePairCount P) :
    P ≠ [] := by
  intro hP
  rw [hP] at h
  simp [freePairCount] at h

/-- The follow obligation computed for a led pair against a hand holding
at least one free pair in the led suit: one pair (two cards), nothing
else, total two led-suit cards. -/
theorem req_pair_lead (t : TrumpSystem) (l1 l2 : Card) (hand : List Card)
    (hsuit : t.effective_suit l2 = t.effective_suit l1)
    (horder : order_of t l1 = order_of t l2)
    (hfree : 1 ≤ freePairCount (pairOrdersOf t
      (hand.filter (fun c => t.effective_suit c =
        (CardCombo.make [l1, l2] t).effSuit)))) :
    CardCombo.required_follow_structure (CardCombo.make [l1, l2] t) hand t =
      ⟨0, 2, 0, 2,
        (tractorPairCount (pairOrdersOf t
          (hand.filter (fun c => t.effective_suit c =
            (CardCombo.make [l1, l2] t).effSuit))) : Int),
        (freePairCount (pairOrdersOf t
          (hand.filter (fun c => t.effective_suit c =
            (CardCombo.make [l1, l2] t).effSuit))) : Int),
        hand.filter (fun c => t.effective_suit c =
          (CardCombo.make [l1, l2] t).effSuit)⟩ := by
  have hcomps : (CardCombo.make [l1, l2] t).components = [[l1, l2]] := by
    unfold CardCombo.make
    rw [detect_pair t l1 l2 hsuit horder]
  have hn : 2 ≤ (hand.filter (fun c => t.effective_suit c =
      (CardCombo.make [l1, l2] t).effSuit)).length :=
    two_le_of_pairOrders t _ (freePairCount_pos_ne_nil _ hfree)
  unfold CardCombo.required_follow_structure
  rw [hcomps]
  dsimp only
  set hs := hand.filter (fun c => t.effective_suit c =
    (CardCombo.make [l1, l2] t).effSuit) with hhs
  rw [if_neg (by omega)]
  set P := pairOrdersOf t hs with hP
  set tp := tractorPairCount P with htp
  set fp := freePairCount P with hfp
  set n := hs.length with hn2
  have hfp' : (1 : Int) ≤ (fp : Int) := by exact_mod_cast hfree
  have hn' : (2 : Int) ≤ (n : Int) := by exact_mod_cast hn
  have htp' : (0 : Int) ≤ (tp : Int) := Int.natCast_nonneg _
  have hlen : (CardCombo.make [l1, l2] t).cards.length = 2 := rfl
  norm_num [sortBy, insertSorted, List.countP, List.countP.go,
    FollowReq.mk.injEq]
  omega

/-- Two cards of distinct orders yield no pair order. -/
theorem pairOrdersOf_two_distinct (t : TrumpSystem) (a b : Card)
    (hne : order_of t a ≠ order_of t b) : pairOrdersOf t [a, b] = [] := by
  unfold pairOrdersOf groupByKey
  simp [List.foldl, insertGroup, Ne.symm hne, sortBy]

/-- Two cards of one order yield exactly that pair order. -/
theorem pairOrdersOf_two_equal (t : TrumpSystem) (a b : Card)
    (heq : order_of t a = order_of t b) :
    pairOrdersOf t [a, b] = [order_of t a] := by
  unfold pairOrdersOf groupByKey
  simp [List.foldl, insertGroup, heq, sortBy, insertSorted]

/-- C4 (amended).  For a led pair and a follower holding a *free* pair in
the led effective suit (a pair not consumed by the hand's consecutive
pair runs), `is_valid_follow` rejects any submission of two led-suit
cards of two different orders and accepts any submission of two led-suit
cards of one order (in particular the pair itself). -/
theorem C4_pair_follow (t : TrumpSystem) (l1 l2 : Card) (hand : List Card)
    (hsuit : t.effective_suit l2 = t.effective_suit l1)
    (horder : order_of t l1 = order_of t l2)
    (hfree : 1 ≤ freePairCount (pairOrdersOf t
      (hand.filter (fun c => t.effective_suit c =
        (CardCombo.make [l1, l2] t).effSuit)))) :
    (∀ a b : Card,
      t.effective_suit a = (CardCombo.make [l1, l2] t).effSuit →
      t.effective_suit b = (CardCombo.make [l1, l2] t).effSuit →
      order_of t a ≠ order_of t b →
      (CardCombo.is_valid_follow [a, b] (CardCombo.make [l1, l2] t) hand t).1 =
        false) ∧
    (∀ p q : Card,
      t.effective_suit p = (CardCombo.make [l1, l2] t).effSuit →
      t.effective_suit q = (CardCombo.make [l1, l2] t).effSuit →
      order_of t p = order_of t q →
      (CardCombo.is_valid_follow [p, q] (CardCombo.make [l1, l2] t) hand t).1 =
        true) := by
  have hreq := req_pair_lead t l1 l2 hand hsuit horder hfree
  constructor
  · intro a b ha hb hne
    unfold CardCombo.is_valid_follow
    rw [hreq]
    dsimp only
    rw [if_neg (by simp [CardCombo.make])]
    have hplay : ([a, b].filter (fun c => t.effective_suit c =
        (CardCombo.make [l1, l2] t).effSuit)) = [a, b] := by
      simp [ha, hb]
    rw [hplay]
    rw [if_neg (by norm_num), if_pos (by norm_num)]
    rw [pairOrdersOf_two_distinct t a b hne]
    rw [if_neg (by norm_num [tractorPairCount, splitRunsBy]),
      if_pos (by norm_num [freePairCount, usedInTractor, splitRunsBy])]
  · intro p q hp hq heq
    unfold CardCombo.is_valid_follow
    rw [hreq]
    dsimp only
    rw [if_neg (by simp [CardCombo.make])]
    have hplay : ([p, q].filter (fun c => t.effective_suit c =
        (CardCombo.make [l1, l2] t).effSuit)) = [p, q] := by
      simp [hp, hq]
    rw [hplay]
    rw [if_neg (by norm_num), if_pos (by norm_num)]
    rw [pairOrdersOf_two_equal t p q heq]
    rw [if_neg (by norm_num [tractorPairCount, splitRunsBy]),
      if_neg (by norm_num [freePairCount, usedInTractor, splitRunsBy,
        tractorPairCount])]

/-- C4 (counterexample).  With trump ♠2, lead ♥K♥K (a pair) and hand
♥5♥5♥6♥6 — which contains the pair ♥5♥5 in the led suit — the submission
♥5♥6 (two led-suit cards of two different orders, breaking the pair) is
*accepted*: both hand pairs sit in a consecutive run, so the engine
demands no free pair. -/
theorem C4_broken_pair_accepted_counterexample :
    order_of ⟨.spades, .r2⟩ (.ord .hearts .r5 0) ≠
      order_of ⟨.spades, .r2⟩ (.ord .hearts .r6 0) ∧
    (CardCombo.is_valid_follow
      [.ord .hearts .r5 0, .ord .hearts .r6 0]
      (CardCombo.make [.ord .hearts .rK 0, .ord .hearts .rK 1] ⟨.spades, .r2⟩)
      [.ord .hearts .r5 0, .ord .hearts .r5 1,
        .ord .hearts .r6 0, .ord .hearts .r6 1]
      ⟨.spades, .r2⟩).1 = true := by
  constructor
  · decide
  · decide

/-- C4 (witness): with hand ♥5♥5♥9 (a free pair ♥5♥5) against a led pair
♥K♥K, the broken submission ♥5♥9 is rejected while the pair ♥5♥5 is
accepted. -/
theorem C4_pair_follow_witness :
    (CardCombo.is_valid_follow
      [.ord .hearts .r5 0, .ord .hearts .r9 0]
      (CardCombo.make [.ord .hearts .rK 0, .ord .hearts .rK 1] ⟨.spades, .r2⟩)
      [.ord .hearts .r5 0, .ord .hearts .r5 1, .ord .hearts .r9 0]
      ⟨.spades, .r2⟩).1 = false ∧
    (CardCombo.is_valid_follow
      [.ord .hearts .r5 0, .ord .hearts .r5 1]
      (CardCombo.make [.ord .hearts .rK 0, .ord .hearts .rK 1] ⟨.spades, .r2⟩)
      [.ord .hearts .r5 0, .ord .hearts .r5 1, .ord .hearts .r9 0]
      ⟨.spades, .r2⟩).1 = true :=
  ⟨(C4_pair_follow ⟨.spades, .r2⟩ (.ord .hearts .rK 0) (.ord .hearts .rK 1)
      [.ord .hearts .r5 0, .ord .hearts .r5 1, .ord .hearts .r9 0]
      (by decide) (by decide) (by decide)).1
      (.ord .hearts .r5 0) (.ord .hearts .r9 0) (by decide) (by decide) (by decide),
   (C4_pair_follow ⟨.spades, .r2⟩ (.ord .hearts .rK 0) (.ord .hearts .rK 1)
      [.ord .hearts .r5 0, .ord .hearts .r5 1, .ord .hearts .r9 0]
      (by decide) (by decide) (by decide)).2
      (.ord .hearts .r5 0) (.ord .hearts .r5 1) (by decide) (by decide) (by decide)⟩

/-! ### C8: the constructive follow against the validator -/

/-- C8 (code bug).  Against the valid 6-card tractor lead `c8Lead`, the
10-card hand `c8Hand` (two non-adjacent 2-pair runs in the led suit),
`build_valid_follow` returns six led-suit cards that `is_valid_follow`
rejects: the availability count (4 tractor pairs) makes the engine demand
3 played tractor pairs, but no 6-card subset of two non-adjacent 2-pair
runs contains 3 consecutive pairs — the builder's own output, and indeed
every possible follow, is rejected. -/
theorem C8_build_valid_follow_rejected :
    (is_valid_lead c8Lead ⟨.spades, .r2⟩).1 = true ∧
    (CardCombo.make c8Lead ⟨.spades, .r2⟩).cards.length ≤ c8Hand.length ∧
    (CardCombo.build_valid_follow (CardCombo.make c8Lead ⟨.spades, .r2⟩)
      c8Hand ⟨.spades, .r2⟩).length = 6 ∧
    (CardCombo.is_valid_follow
      (CardCombo.build_valid_follow (CardCombo.make c8Lead ⟨.spades, .r2⟩)
        c8Hand ⟨.spades, .r2⟩)
      (CardCombo.make c8Lead ⟨.spades, .r2⟩) c8Hand ⟨.spades, .r2⟩).1 =
      false := by
  refine ⟨by decide, by decide, by decide, by decide⟩

/-! ### C5: card conservation -/

/-- `insertSorted` adds one element. -/
theorem length_insertSorted {α : Type} (le : α → α → Bool) (a : α)
    (l : List α) : (insertSorted le a l).length = l.length + 1 := by
  induction l with
  | nil => rfl
  | cons b bs ih =>
    unfold insertSorted
    split
    · rfl
    · simp [ih]

/-- `sortBy` preserves length. -/
theorem length_sortBy {α : Type} (le : α → α → Bool) (l : List α) :
    (sortBy le l).length = l.length := by
  induction l with
  | nil => rfl
  | cons a as ih =>
    unfold sortBy at ih ⊢
    rw [List.foldr_cons, length_insertSorted, ih, List.length_cons]

/-- `sort_hand` preserves hand size. -/
theorem length_sort_hand (t : TrumpSystem) (h : List Card) :
    (t.sort_hand h).length = h.length := length_sortBy _ _

/-- Updating one entry of a list changes a mapped sum by the difference
of the images. -/
theorem map_sum_set (f : List Card → Nat) :
    ∀ (l : List (List Card)) (i : Nat) (x : List Card), i < l.length →
      ((l.set i x).map f).sum + f (l.getD i []) = (l.map f).sum + f x := by
  intro l
  induction l with
  | nil => intro i x h; cases h
  | cons a as ih =>
    intro i x h
    cases i with
    | zero => simp [List.set]; omega
    | succ j =>
      have hj : j < as.length := by simpa using h
      simp only [List.set, List.map_cons, List.sum_cons, List.getD_cons_succ]
      have := ih j x hj
      omega

/-- Erasing a sub-multiset removes exactly its length. -/
theorem length_foldl_erase :
    ∀ (cards hand : List Card), cards.Subperm hand →
      (cards.foldl List.erase hand).length + cards.length = hand.length := by
  intro cards
  induction cards with
  | nil => intro hand _; simp
  | cons c cs ih =>
    intro hand h
    have hc : c ∈ hand := h.subset (List.mem_cons_self c cs)
    have hcs : cs.Subperm (hand.erase c) := by
      have := h.erase c
      simpa using this
    rw [List.foldl_cons]
    have := ih (hand.erase c) hcs
    have hlen : (hand.erase c).length + 1 = hand.length := by
      rw [List.length_erase_of_mem hc]
      have := List.length_pos_of_mem hc
      omega
    simp only [List.length_cons]
    omega

/-- Total accounted, written out. -/
theorem totalAccounted_def (g : GameState) :
    g.totalAccounted = (g.hands.map List.length).sum + g.kitty.length +
      (g.tricks.map trickCardCount).sum +
      (match g.current_trick with
       | some tr => trickCardCount tr
       | none => 0) := rfl

/-- Playing into a trick adds the played cards to its count. -/
theorem trickCardCount_play (tr : TrickData) (p : Nat) (cards : List Card) :
    trickCardCount (tr.play p cards) = trickCardCount tr + cards.length := by
  unfold TrickData.play trickCardCount
  simp

theorem sum_map_sort (t : TrumpSystem) (hands : List (List Card)) :
    ((hands.map t.sort_hand).map List.length).sum =
      (hands.map List.length).sum := by
  rw [List.map_map]
  have : hands.map (List.length ∘ t.sort_hand) = hands.map List.length :=
    List.map_congr_left (fun x _ => length_sort_hand t x)
  rw [this]

theorem finalize_fields (g : GameState) :
    ((g.finalize_declaration).hands.map List.length).sum =
      ((g.hands.map List.length).sum) ∧
    (g.finalize_declaration).hands.length = g.hands.length ∧
    (g.finalize_declaration).kitty = g.kitty ∧
    (g.finalize_declaration).phase = g.phase ∧
    (g.finalize_declaration).deal_idx = g.deal_idx ∧
    (g.finalize_declaration).current_trick = g.current_trick ∧
    (g.finalize_declaration).tricks = g.tricks ∧
    (g.finalize_declaration).kitty_start = g.kitty_start ∧
    (g.finalize_declaration).num_players = g.num_players ∧
    (g.finalize_declaration).deck = g.deck := by
  unfold GameState.finalize_declaration
  rcases g.declaration with - | ⟨p, cards⟩
  · dsimp only
    exact ⟨sum_map_sort _ _, by simp, rfl, rfl, rfl, rfl, rfl, rfl, rfl, rfl⟩
  · dsimp only
    rcases cards.filter (fun c => !(Card.is_joker c)) with - | ⟨c, cs⟩
    · dsimp only
      exact ⟨sum_map_sort _ _, by simp, rfl, rfl, rfl, rfl, rfl, rfl, rfl, rfl⟩
    · dsimp only
      exact ⟨sum_map_sort _ _, by simp, rfl, rfl, rfl, rfl, rfl, rfl, rfl, rfl⟩

/-- `deal_next_card` preserves the round invariant. -/
theorem GInv_deal (g : GameState) (h : GInv g) : GInv (g.deal_next_card).2 := by
  obtain ⟨hnp, hhl, hks, hdl, hdeal, hnd, hkn, htot⟩ := h
  unfold GameState.deal_next_card
  by_cases hidx : g.kitty_start ≤ g.deal_idx
  · rw [if_pos hidx]
    exact ⟨hnp, hhl, hks, hdl, hdeal, hnd, hkn, htot⟩
  · rw [if_neg hidx]
    have hlt : g.deal_idx < 100 := by omega
    have hph : g.phase = .dealing := by
      by_contra hph
      have := hnd hph
      omega
    obtain ⟨-, hkitty, hcur, hsum⟩ := hdeal hph
    have hpl : g.deal_idx % g.num_players < g.hands.length := by
      rw [hhl, hnp]
      omega
    have hsum' :
        (((setHand g.hands (g.deal_idx % g.num_players)
            (g.hands.getD (g.deal_idx % g.num_players) [] ++
              [g.deck.getD g.deal_idx (.sj 0)])).map List.length).sum) =
        ((g.hands.map List.length).sum) + 1 := by
      have := map_sum_set List.length g.hands (g.deal_idx % g.num_players)
        (g.hands.getD (g.deal_idx % g.num_players) [] ++
          [g.deck.getD g.deal_idx (.sj 0)]) hpl
      rw [List.length_append, List.length_cons, List.length_nil] at this
      unfold setHand
      omega
    by_cases hdone : g.kitty_start ≤ g.deal_idx + 1
    · rw [if_pos hdone]
      unfold GInv
      obtain ⟨hfsum, hflen, hfkit, hfph, hfidx, hfcur, hftr, hfks2, hfnp, hfdk⟩ :=
        finalize_fields
          { g with
            hands := setHand g.hands (g.deal_idx % g.num_players)
              (g.hands.getD (g.deal_idx % g.num_players) [] ++
                [g.deck.getD g.deal_idx (.sj 0)])
            deal_idx := g.deal_idx + 1
            kitty := g.deck.drop g.kitty_start }
      dsimp only at hfsum hflen hfkit hfph hfidx hfcur hftr hfks2 hfnp hfdk ⊢
      refine ⟨by rw [hfnp]; exact hnp, by rw [hflen]; simpa [setHand] using hhl,
        by rw [hfks2]; exact hks, by rw [hfdk]; exact hdl, ?_, ?_, ?_, ?_⟩
      · intro hph'
        exact absurd hph' (by decide)
      · intro _
        rw [hfidx]
        omega
      · intro _
        rw [hfcur]
        exact hcur
      · intro _
        rw [totalAccounted_def]
        dsimp only
        rw [hfsum, hfkit, hftr, hfcur, hcur, hsum']
        rw [totalAccounted_def] at hsum
        rw [hkitty, hcur] at hsum
        simp only [List.length_nil, List.length_drop] at hsum ⊢
        rw [hks, hdl]
        omega
    · rw [if_neg hdone]
      unfold GInv
      dsimp only
      refine ⟨hnp, by simpa [setHand] using hhl, hks, hdl, ?_, ?_, ?_, ?_⟩
      · intro _
        refine ⟨by omega, hkitty, hcur, ?_⟩
        rw [totalAccounted_def] at hsum ⊢
        dsimp only at hsum ⊢
        rw [hsum']
        omega
      · intro hph'
        exact absurd hph (by simpa using hph')
      · intro hph'
        rw [hph'] at hph
        cases hph
      · intro hph'
        rcases hph' with hph' | hph' <;> (rw [hph'] at hph; cases hph)

/-- `declare_trump` preserves the round invariant. -/
theorem GInv_declare (g : GameState) (p : Nat) (cards : List Card)
    (h : GInv g) : GInv (g.declare_trump p cards).2 := by
  obtain ⟨hnp, hhl, hks, hdl, hdeal, hnd, hkn, htot⟩ := h
  unfold GameState.declare_trump
  dsimp only
  split_ifs <;>
    first
      | exact ⟨hnp, hhl, hks, hdl, hdeal, hnd, hkn, htot⟩
      | (split <;> exact ⟨hnp, hhl, hks, hdl, hdeal, hnd, hkn, htot⟩)

/-- A fresh trick holds no cards. -/
theorem trickCardCount_empty (t : TrumpSystem) (l : Nat) :
    trickCardCount ⟨t, l, [], none⟩ = 0 := rfl

/-- A completed `bury_kitty` preserves the round invariant. -/
theorem GInv_bury (g : GameState) (cards : List Card) (h : GInv g)
    (hphase : g.phase = .kitty) (hlen : cards.length = 8)
    (hp : g.declaring_player < g.hands.length)
    (hsub : cards.Subperm (g.hands.getD g.declaring_player [] ++ g.kitty)) :
    GInv (g.bury_kitty cards) := by
  obtain ⟨hnp, hhl, hks, hdl, hdeal, hnd, hkn, htot⟩ := h
  have hcur := hkn hphase
  have htot' := htot (Or.inl hphase)
  have hnd' : 100 ≤ g.deal_idx := hnd (by rw [hphase]; exact fun hh => nomatch hh)
  unfold GameState.bury_kitty GInv
  dsimp only
  refine ⟨hnp, by simpa [setHand] using hhl, hks, hdl, ?_, ?_, ?_, ?_⟩
  · intro hph'; exact absurd hph' (by decide)
  · intro _; exact hnd'
  · intro hph'; exact absurd hph' (by decide)
  · intro _
    rw [totalAccounted_def]
    dsimp only
    have herase := length_foldl_erase cards
      (g.hands.getD g.declaring_player [] ++ g.kitty) hsub
    have hset := map_sum_set List.length g.hands g.declaring_player
      (cards.foldl List.erase (g.hands.getD g.declaring_player [] ++ g.kitty)) hp
    rw [totalAccounted_def, hcur] at htot'
    dsimp only at htot'
    rw [List.length_append] at herase
    unfold setHand
    rw [trickCardCount_empty, hlen]
    omega

/-- A completed `play_cards` preserves the round invariant. -/
theorem GInv_play (g : GameState) (p : Nat) (cards : List Card)
    (h : GInv g) (hphase : g.phase = .playing)
    (hp : p < g.hands.length) (htrick : g.current_trick.isSome)
    (hsub : cards.Subperm (g.hands.getD p [])) :
    GInv (g.play_cards p cards).2 := by
  obtain ⟨hnp, hhl, hks, hdl, hdeal, hnd, hkn, htot⟩ := h
  have htot' := htot (Or.inr hphase)
  have hnd' : 100 ≤ g.deal_idx := hnd (by rw [hphase]; exact fun hh => nomatch hh)
  obtain ⟨tr, htr⟩ := Option.isSome_iff_exists.mp htrick
  have herase := length_foldl_erase cards (g.hands.getD p []) hsub
  have hset := map_sum_set List.length g.hands p
    (cards.foldl List.erase (g.hands.getD p [])) hp
  have hplay := trickCardCount_play tr p cards
  rw [totalAccounted_def, htr] at htot'
  unfold GameState.play_cards
  rw [htr]
  dsimp only
  split_ifs with hcomp hall
  · -- trick complete, all cards played: SCORING
    unfold GInv
    dsimp only
    refine ⟨hnp, by simpa [setHand] using hhl, hks, hdl, ?_, ?_, ?_, ?_⟩
    · intro hph'; exact absurd hph' (by decide)
    · intro _; exact hnd'
    · intro hph'; exact absurd hph' (by decide)
    · intro hph'
      rcases hph' with hph' | hph' <;> exact absurd hph' (by decide)
  · -- trick complete, round continues: new empty trick led by the winner
    unfold GInv
    dsimp only
    refine ⟨hnp, by simpa [setHand] using hhl, hks, hdl, ?_, ?_, ?_, ?_⟩
    · intro hph'; rw [hphase] at hph'; exact absurd hph' (by decide)
    · intro _; exact hnd'
    · intro hph'; rw [hphase] at hph'; exact absurd hph' (by decide)
    · intro _
      rw [totalAccounted_def]
      dsimp only
      unfold setHand
      rw [List.map_append, List.sum_append]
      simp only [List.map_cons, List.map_nil, List.sum_cons, List.sum_nil]
      rw [trickCardCount_empty, hplay]
      dsimp only at htot'
      omega
  · -- trick not yet complete
    unfold GInv
    dsimp only
    refine ⟨hnp, by simpa [setHand] using hhl, hks, hdl, ?_, ?_, ?_, ?_⟩
    · intro hph'; rw [hphase] at hph'; exact absurd hph' (by decide)
    · intro _; exact hnd'
    · intro hph'; rw [hphase] at hph'; exact absurd hph' (by decide)
    · intro _
      rw [totalAccounted_def]
      dsimp only
      unfold setHand
      rw [hplay]
      dsimp only at htot'
      omega

/-- Every completed operation preserves the round invariant. -/
theorem GInv_step {g g' : GameState} (h : GInv g) (hs : GStep g g') : GInv g' := by
  cases hs with
  | deal => exact GInv_deal g h
  | declare p cards => exact GInv_declare g p cards h
  | bury cards hphase hlen hp hsub => exact GInv_bury g cards h hphase hlen hp hsub
  | play p cards hphase hcur hp htrick hsub =>
    exact GInv_play g p cards h hphase hp htrick hsub

/-- The invariant holds along every operation trace. -/
theorem GInv_reach {g g' : GameState} (h : GInv g) (hr : GReach g g') : GInv g' := by
  induction hr with
  | refl => exact h
  | tail _ hstep ih => exact GInv_step ih hstep

/-- The invariant holds at the start of a 4-player 108-card round. -/
theorem GInv_init (deck : List Card) (tr : Rank) (team : Nat)
    (hdeck : deck.length = 108) : GInv (GameState.mk_init deck 4 tr team) := by
  unfold GameState.mk_init GInv
  dsimp only
  rw [hdeck]
  refine ⟨rfl, by simp, by norm_num, rfl, ?_, ?_, ?_, ?_⟩
  · intro _
    exact ⟨by norm_num, rfl, rfl, rfl⟩
  · intro hph
    exact absurd rfl hph
  · intro hph
    exact absurd hph (by decide)
  · intro hph
    rcases hph with hph | hph <;> exact absurd hph (by decide)

/-- Iterated dealing is reachable by completed operations. -/
theorem reach_dealIter (n : Nat) : ∀ g, GReach g (dealIter n g) := by
  induction n with
  | zero => intro g; exact Relation.ReflTransGen.refl
  | succ m ih =>
    intro g
    exact Relation.ReflTransGen.head (GStep.deal g) (ih (g.deal_next_card).2)

/-- C5 (amended).  In every state reached from a fresh 4-player
108-card round by completed operations, whenever the phase is KITTY or
PLAYING the sum of all hand sizes, the kitty size, and the cards played
into tricks (current and archived) equals 108. -/
theorem C5_conservation_after_dealing (deck : List Card) (tr : Rank)
    (team : Nat) (g : GameState) (hdeck : deck.length = 108)
    (hreach : GReach (GameState.mk_init deck 4 tr team) g)
    (hphase : g.phase = .kitty ∨ g.phase = .playing) :
    g.totalAccounted = 108 :=
  (GInv_reach (GInv_init deck tr team hdeck) hreach).2.2.2.2.2.2.2 hphase

/-- C5 (counterexample).  After the first completed `deal_next_card`
the phase is DEALING and the accounted total is 1, not 108: the kitty is
empty and undealt cards are uncounted, so the spec's "at every point in
DEALING" fails. -/
theorem C5_dealing_counterexample :
    ((GameState.mk_init makeDoubleDeck 4 .r2 0).deal_next_card).2.phase =
      .dealing ∧
    ((GameState.mk_init makeDoubleDeck 4 .r2 0).deal_next_card).2.totalAccounted
      = 1 ∧
    ¬ ((GameState.mk_init makeDoubleDeck 4 .r2 0).deal_next_card).2.totalAccounted
      = 108 := by
  refine ⟨by decide, by decide, by decide⟩

set_option maxRecDepth 40000 in
set_option maxRecDepth 40000 in
/-- C5 (witness): dealing out all 100 player cards of the concrete
double deck reaches the KITTY phase with exactly 108 cards accounted. -/
theorem C5_conservation_witness :
    makeDoubleDeck.length = 108 ∧
    ((dealIter 100 (GameState.mk_init makeDoubleDeck 4 .r2 0)).phase = .kitty ∨
      (dealIter 100 (GameState.mk_init makeDoubleDeck 4 .r2 0)).phase = .playing) ∧
    (dealIter 100 (GameState.mk_init makeDoubleDeck 4 .r2 0)).totalAccounted =
      108 :=
  ⟨by decide, Or.inl (by decide),
   C5_conservation_after_dealing makeDoubleDeck .r2 0 _ (by decide)
     (reach_dealIter 100 _) (Or.inl (by decide))⟩

/-! ### C6: `CardCombo` components partition their input -/

/-- Flattening a sublist of lists yields a sublist of the flattening. -/
theorem sublist_flatten {α : Type} {L₁ L₂ : List (List α)} (h : L₁.Sublist L₂) :
    L₁.flatten.Sublist L₂.flatten := by
  induction h with
  | slnil => exact List.Sublist.refl _
  | cons l _ ih => exact ih.trans (List.sublist_append_right l _)
  | cons₂ l _ ih => exact (List.Sublist.refl l).append ih

/-- Flattening a subpermutation of lists yields a subpermutation. -/
theorem subperm_flatten {α : Type} {L₁ L₂ : List (List α)} (h : L₁.Subperm L₂) :
    L₁.flatten.Subperm L₂.flatten := by
  rcases h with ⟨mid, hp, hs⟩
  exact ⟨mid.flatten, hp.flatten, sublist_flatten hs⟩

/-- `Subperm` is preserved by `map`. -/
theorem subperm_map {α β : Type} (f : α → β) {l₁ l₂ : List α}
    (h : l₁.Subperm l₂) : (l₁.map f).Subperm (l₂.map f) := by
  rcases h with ⟨mid, hp, hs⟩
  exact ⟨mid.map f, hp.map f, hs.map f⟩

/-- `Subperm` is preserved by `++` on both sides. -/
theorem subperm_append {α : Type} {l₁ l₂ r₁ r₂ : List α}
    (h : l₁.Subperm l₂) (h₂ : r₁.Subperm r₂) :
    (l₁ ++ r₁).Subperm (l₂ ++ r₂) := by
  rcases h with ⟨m₁, hp₁, hs₁⟩
  rcases h₂ with ⟨m₂, hp₂, hs₂⟩
  exact ⟨m₁ ++ m₂, hp₁.append hp₂, hs₁.append hs₂⟩

/-- A subpermutation of a duplicate-free list is duplicate-free. -/
theorem subperm_nodup {α : Type} {l₁ l₂ : List α} (h : l₁.Subperm l₂)
    (hn : l₂.Nodup) : l₁.Nodup := by
  rcases h with ⟨mid, hp, hs⟩
  exact hp.nodup_iff.mp (hs.nodup hn)

/-- A fold whose body appends a payload to the accumulator flattens the
mapped payloads. -/
theorem foldl_append_of_body {α β : Type} (body : List β → α → List β)
    (δ : α → List β) (hb : ∀ acc g, body acc g = acc ++ δ g) :
    ∀ (l : List α) (acc : List β),
      l.foldl body acc = acc ++ (l.map δ).flatten := by
  intro l
  induction l with
  | nil => intro acc; simp
  | cons a as ih =>
    intro acc
    rw [List.foldl_cons, hb, ih]
    simp

/-- Flattening mapped flattenings collapses to mapping over the flattening. -/
theorem flatten_map_flatten {α β : Type} (f : α → List β) (L : List (List α)) :
    (L.map (fun run => (run.map f).flatten)).flatten =
      ((L.flatten).map f).flatten := by
  induction L with
  | nil => rfl
  | cons r L ih => simp [List.map_append, List.flatten_append, ih]

/-- Pointwise subpermutation of payloads gives subpermutation of the
flattened maps. -/
theorem flatten_subperm_congr {α β : Type} (G H : α → List β) (l : List α)
    (h : ∀ x ∈ l, (G x).Subperm (H x)) :
    ((l.map G).flatten).Subperm ((l.map H).flatten) := by
  induction l with
  | nil => exact List.Subperm.refl _
  | cons a as ih =>
    simp only [List.map_cons, List.flatten_cons]
    exact subperm_append (h a (List.mem_cons_self a as))
      (ih fun x hx => h x (List.mem_cons_of_mem a hx))

/-- Flattening singletons recovers the list. -/
theorem flatten_map_singleton {α : Type} (l : List α) :
    (l.map (fun x => [x])).flatten = l := by
  induction l with
  | nil => rfl
  | cons a as ih => simp [ih]

/-- `insertGroup` appends the new element to the flattened buckets, up to
permutation. -/
theorem insertGroup_flatten_perm {κ α : Type} [DecidableEq κ] (k : κ) (a : α)
    (acc : List (κ × List α)) :
    ((insertGroup k a acc).map Prod.snd).flatten.Perm
      (((acc.map Prod.snd).flatten) ++ [a]) := by
  induction acc with
  | nil => simp [insertGroup]
  | cons g rest ih =>
    rcases g with ⟨k₂, as⟩
    unfold insertGroup
    split
    · simp only [List.map_cons, List.flatten_cons]
      rw [List.append_assoc, List.append_assoc]
      exact List.Perm.append_left as List.perm_append_comm
    · simp only [List.map_cons, List.flatten_cons]
      rw [List.append_assoc]
      exact List.Perm.append_left as ih

/-- The buckets of `groupByKey` flatten to a permutation of the input. -/
theorem groupByKey_flatten_perm {κ α : Type} [DecidableEq κ] (key : α → κ)
    (l : List α) :
    ((groupByKey key l).map Prod.snd).flatten.Perm l := by
  suffices h : ∀ acc : List (κ × List α),
      ((l.foldl (fun acc a => insertGroup (key a) a acc) acc).map
        Prod.snd).flatten.Perm ((acc.map Prod.snd).flatten ++ l) by
    simpa using h []
  induction l with
  | nil => intro acc; simp
  | cons a as ih =>
    intro acc
    rw [List.foldl_cons]
    refine (ih _).trans ?_
    refine (List.Perm.append_right as (insertGroup_flatten_perm _ _ _)).trans ?_
    rw [List.append_assoc]
    exact List.Perm.refl _

/-- The entries collected by `pairsBySuitOf` are exactly the
`(order, cs[:2])` pairs of the groups of size ≥ 2, up to permutation. -/
theorem pairsBySuitOf_entries_perm (groups : List ((ESuit × Nat) × List Card)) :
    ((pairsBySuitOf groups).map Prod.snd).flatten.Perm
      ((groups.filter (fun g => 2 ≤ g.2.length)).map
        (fun g => (g.1.2, g.2.take 2))) := by
  unfold pairsBySuitOf
  suffices h : ∀ acc : List (ESuit × List (Nat × List Card)),
      ((groups.foldl
        (fun acc g =>
          if 2 ≤ g.2.length then insertGroup g.1.1 (g.1.2, g.2.take 2) acc
          else acc) acc).map Prod.snd).flatten.Perm
      ((acc.map Prod.snd).flatten ++
        (groups.filter (fun g => 2 ≤ g.2.length)).map
          (fun g => (g.1.2, g.2.take 2))) by
    simpa using h []
  induction groups with
  | nil => intro acc; simp
  | cons g gs ih =>
    intro acc
    rw [List.foldl_cons]
    by_cases h2 : 2 ≤ g.2.length
    · rw [if_pos h2, List.filter_cons_of_pos (by simpa using h2), List.map_cons]
      refine (ih _).trans ?_
      refine (List.Perm.append_right _ (insertGroup_flatten_perm _ _ _)).trans ?_
      rw [List.append_assoc]
      exact List.Perm.refl _
    · rw [if_neg h2, List.filter_cons_of_neg (by simpa using h2)]
      exact ih acc

/-- `splitRunsBy` partitions the list it splits: the runs flatten back to
the input. -/
theorem splitRunsBy_flatten {α : Type} (f : α → Nat) (l : List α) :
    (splitRunsBy f l).flatten = l := by
  induction l with
  | nil => rfl
  | cons a tail ih =>
    cases tail with
    | nil => rfl
    | cons b rest =>
      simp only [splitRunsBy]
      cases hsp : splitRunsBy f (b :: rest) with
      | nil =>
        rw [hsp] at ih
        simp at ih
      | cons run runs =>
        rw [hsp] at ih
        simp only [List.flatten_cons] at ih
        dsimp only
        split
        · simp only [List.flatten_cons, List.cons_append, ih]
        · simp only [List.flatten_cons, List.singleton_append, ih]

/-- Collapsing a flatten-of-maps through an inner projection. -/
theorem flatten_map_comp {σ α β : Type} (g : σ → List α) (f : α → List β)
    (L : List σ) :
    (L.map (fun sp => ((g sp).map f).flatten)).flatten =
      (((L.map g).flatten).map f).flatten := by
  induction L with
  | nil => rfl
  | cons sp L ih => simp [List.map_append, List.flatten_append, ih]

/-- The three decomposition passes together use every card of the grouped
input exactly once: their components flatten to a permutation of the
input, provided the input is duplicate-free. -/
theorem passes_flatten_perm (G : List ((ESuit × Nat) × List Card))
    (cards : List Card) (hnd : cards.Nodup)
    (hGp : ((G.map Prod.snd).flatten).Perm cards) :
    ((tractorCompsOf (pairsBySuitOf G) ++
      pairCompsOf G (tractorCompsOf (pairsBySuitOf G)).flatten ++
      singleCompsOf G
        ((tractorCompsOf (pairsBySuitOf G)).flatten ++
          (pairCompsOf G
            (tractorCompsOf (pairsBySuitOf G)).flatten).flatten)).flatten).Perm
      cards := by
  have hGn : ((G.map Prod.snd).flatten).Nodup := hGp.nodup_iff.mpr hnd
  set T := tractorCompsOf (pairsBySuitOf G) with hT
  set P := pairCompsOf G T.flatten with hP
  set S := singleCompsOf G (T.flatten ++ P.flatten) with hS
  rw [List.flatten_append, List.flatten_append]
  -- normalized forms of the three passes
  have hTeq : T = ((pairsBySuitOf G).map (fun sp =>
      ((splitRunsBy Prod.fst (sortBy (fun a b => a.1 ≤ b.1) sp.2)).filter
        (fun run => 2 ≤ run.length)).map
        (fun run => (run.map Prod.snd).flatten))).flatten := by
    rw [hT]
    unfold tractorCompsOf
    have h := foldl_append_of_body
      (fun acc sp =>
        let runs := splitRunsBy Prod.fst (sortBy (fun a b => a.1 ≤ b.1) sp.2)
        acc ++ (runs.filter (fun run => 2 ≤ run.length)).map
          (fun run => (run.map Prod.snd).flatten))
      (fun sp =>
        ((splitRunsBy Prod.fst (sortBy (fun a b => a.1 ≤ b.1) sp.2)).filter
          (fun run => 2 ≤ run.length)).map
          (fun run => (run.map Prod.snd).flatten))
      (fun acc sp => rfl) (pairsBySuitOf G) []
    simpa using h
  have hPeq : P = (G.map (fun g =>
      if 2 ≤ g.2.length then
        (if ((g.2.take 2).filter
              (fun c => ¬ (T.flatten).contains c)).length = 2
         then [(g.2.take 2).filter (fun c => ¬ (T.flatten).contains c)]
         else [])
      else [])).flatten := by
    rw [hP]
    unfold pairCompsOf
    have h := foldl_append_of_body
      (fun acc g =>
        if 2 ≤ g.2.length then
          let pair := (g.2.take 2).filter (fun c => ¬ (T.flatten).contains c)
          if pair.length = 2 then acc ++ [pair] else acc
        else acc)
      (fun g =>
        if 2 ≤ g.2.length then
          (if ((g.2.take 2).filter
                (fun c => ¬ (T.flatten).contains c)).length = 2
           then [(g.2.take 2).filter (fun c => ¬ (T.flatten).contains c)]
           else [])
        else [])
      (fun acc g => by dsimp only; split_ifs <;> simp) G []
    simpa using h
  have hSeq : S = (G.map (fun g =>
      (g.2.filter (fun c => ¬ ((T.flatten ++ P.flatten)).contains c)).map
        (fun c => [c]))).flatten := by
    rw [hS]
    unfold singleCompsOf
    have h := foldl_append_of_body
      (fun acc g =>
        acc ++ (g.2.filter
          (fun c => ¬ ((T.flatten ++ P.flatten)).contains c)).map
          (fun c => [c]))
      (fun g =>
        (g.2.filter (fun c => ¬ ((T.flatten ++ P.flatten)).contains c)).map
          (fun c => [c]))
      (fun acc g => rfl) G []
    simpa using h
  -- the tractor pass draws from the collected pair heads
  have hu₁G : T.flatten.Subperm ((G.map Prod.snd).flatten) := by
    rw [hTeq, List.flatten_flatten, List.map_map]
    refine List.Subperm.trans
      (flatten_subperm_congr _ (fun sp => (sp.2.map Prod.snd).flatten) _ ?_) ?_
    · intro sp _
      show ((((splitRunsBy Prod.fst
            (sortBy (fun a b => a.1 ≤ b.1) sp.2)).filter
          (fun run => 2 ≤ run.length)).map
          (fun run => (run.map Prod.snd).flatten)).flatten).Subperm
        ((sp.2.map Prod.snd).flatten)
      rw [flatten_map_flatten]
      refine subperm_flatten (subperm_map Prod.snd ?_)
      have h2 : (((splitRunsBy Prod.fst
            (sortBy (fun a b => a.1 ≤ b.1) sp.2)).filter
          (fun run => 2 ≤ run.length)).flatten).Sublist
          ((splitRunsBy Prod.fst
            (sortBy (fun a b => a.1 ≤ b.1) sp.2)).flatten) :=
        sublist_flatten (List.filter_sublist _)
      rw [splitRunsBy_flatten] at h2
      exact h2.subperm.trans (sortBy_perm _ _).subperm
    · rw [flatten_map_comp Prod.snd Prod.snd]
      refine List.Subperm.trans
        (((pairsBySuitOf_entries_perm G).map Prod.snd).flatten).subperm ?_
      rw [List.map_map]
      refine List.Subperm.trans
        (flatten_subperm_congr _ Prod.snd _ ?_) ?_
      · intro g _
        show ((g.2.take 2)).Subperm g.2
        exact (List.take_sublist 2 g.2).subperm
      · exact (sublist_flatten ((List.filter_sublist G).map Prod.snd)).subperm
  have hPfG : P.flatten.Subperm ((G.map Prod.snd).flatten) := by
    rw [hPeq, List.flatten_flatten, List.map_map]
    refine flatten_subperm_congr _ Prod.snd G ?_
    intro g _
    show ((if 2 ≤ g.2.length then
        (if ((g.2.take 2).filter
              (fun c => ¬ (T.flatten).contains c)).length = 2
         then [(g.2.take 2).filter (fun c => ¬ (T.flatten).contains c)]
         else [])
      else []).flatten).Subperm g.2
    split_ifs with h1 h2
    · simp only [List.flatten_cons, List.flatten_nil, List.append_nil]
      exact ((List.filter_sublist _).trans (List.take_sublist 2 g.2)).subperm
    · exact List.nil_subperm
    · exact List.nil_subperm
  have hSfG : S.flatten.Subperm ((G.map Prod.snd).flatten) := by
    rw [hSeq, List.flatten_flatten, List.map_map]
    refine flatten_subperm_congr _ Prod.snd G ?_
    intro g _
    show (((g.2.filter
        (fun c => ¬ ((T.flatten ++ P.flatten)).contains c)).map
        (fun c => [c])).flatten).Subperm g.2
    rw [flatten_map_singleton]
    exact (List.filter_sublist _).subperm
  have hu₁nd : T.flatten.Nodup := subperm_nodup hu₁G hGn
  have hPfnd : P.flatten.Nodup := subperm_nodup hPfG hGn
  have hSfnd : S.flatten.Nodup := subperm_nodup hSfG hGn
  -- pair components were filtered against the tractor cards
  have hPmem : ∀ x ∈ P.flatten, x ∉ T.flatten := by
    intro x hx
    rw [hPeq, List.flatten_flatten, List.map_map] at hx
    rcases List.mem_flatten.mp hx with ⟨l, hl, hxl⟩
    rcases List.mem_map.mp hl with ⟨g, hgG, rfl⟩
    simp only [Function.comp_apply] at hxl
    by_cases h1 : 2 ≤ g.2.length
    · rw [if_pos h1] at hxl
      by_cases h2 : ((g.2.take 2).filter
          (fun c => ¬ (T.flatten).contains c)).length = 2
      · rw [if_pos h2] at hxl
        simp only [List.flatten_cons, List.flatten_nil, List.append_nil] at hxl
        have h3 := List.mem_filter.mp hxl
        simpa using h3.2
      · rw [if_neg h2] at hxl
        simp at hxl
    · rw [if_neg h1] at hxl
      simp at hxl
  -- single components were filtered against everything already used
  have hSmem : ∀ x ∈ S.flatten, x ∉ T.flatten ++ P.flatten := by
    intro x hx
    rw [hSeq, List.flatten_flatten, List.map_map] at hx
    rcases List.mem_flatten.mp hx with ⟨l, hl, hxl⟩
    rcases List.mem_map.mp hl with ⟨g, hgG, rfl⟩
    simp only [Function.comp_apply] at hxl
    rw [flatten_map_singleton] at hxl
    have h3 := List.mem_filter.mp hxl
    simpa using h3.2
  have hnodall : (T.flatten ++ P.flatten ++ S.flatten).Nodup := by
    refine List.Nodup.append (List.Nodup.append hu₁nd hPfnd ?_) hSfnd ?_
    · intro x hxT hxP
      exact hPmem x hxP hxT
    · intro x hx hxS
      exact hSmem x hxS hx
  have hsub : ∀ x ∈ T.flatten ++ P.flatten ++ S.flatten, x ∈ cards := by
    intro x hx
    rcases List.mem_append.mp hx with hx' | hxS
    · rcases List.mem_append.mp hx' with hxT | hxP
      · exact hGp.subset (hu₁G.subset hxT)
      · exact hGp.subset (hPfG.subset hxP)
    · exact hGp.subset (hSfG.subset hxS)
  have hsup : ∀ x ∈ cards, x ∈ T.flatten ++ P.flatten ++ S.flatten := by
    intro x hx
    by_cases hx₂ : x ∈ T.flatten ++ P.flatten
    · exact List.mem_append.mpr (Or.inl hx₂)
    · refine List.mem_append.mpr (Or.inr ?_)
      have hxG : x ∈ (G.map Prod.snd).flatten := hGp.symm.subset hx
      rcases List.mem_flatten.mp hxG with ⟨l, hl, hxl⟩
      rcases List.mem_map.mp hl with ⟨g, hgG, rfl⟩
      rw [hSeq, List.flatten_flatten, List.map_map]
      refine List.mem_flatten.mpr ⟨_, List.mem_map.mpr ⟨g, hgG, rfl⟩, ?_⟩
      show x ∈ (((Prod.snd g).filter
          (fun c => ¬ ((T.flatten ++ P.flatten)).contains c)).map
          (fun c => [c])).flatten
      rw [flatten_map_singleton]
      exact List.mem_filter.mpr ⟨hxl, by simpa using hx₂⟩
  refine List.perm_of_nodup_nodup_toFinset_eq hnodall hnd ?_
  ext y
  simp only [List.mem_toFinset]
  exact ⟨fun h => hsub y h, fun h => hsup y h⟩

/-- `_decompose` partitions a duplicate-free input: its components flatten
to a permutation of the input cards. -/
theorem decompose_flatten_perm (t : TrumpSystem) (cards : List Card)
    (hnd : cards.Nodup) : (decompose t cards).flatten.Perm cards := by
  unfold decompose
  dsimp only
  split
  · simp
  · exact passes_flatten_perm
      (groupByKey (fun c => (t.effective_suit c, order_of t c)) cards) cards hnd
      (groupByKey_flatten_perm _ cards)

/-- `_detect` partitions a duplicate-free input: in every branch the
components flatten to a permutation of the input cards. -/
theorem detect_components_perm (t : TrumpSystem) (cards : List Card)
    (hnd : cards.Nodup) : ((detect t cards).2).flatten.Perm cards := by
  unfold detect
  dsimp only
  split_ifs <;>
    first
      | exact decompose_flatten_perm t cards hnd
      | simp

/-- C6: for every nonempty list of pairwise-distinct cards and every
TrumpSystem, the components of the constructed `CardCombo` partition the
input: the component sizes sum to the input length, every input card lies
in some component, the components are pairwise disjoint, and each
component is duplicate-free (so no card occurs in more than one
component, nor twice in one). -/
theorem C6_components_partition (t : TrumpSystem) (cards : List Card)
    (hne : cards ≠ []) (hnd : cards.Nodup) :
    (((CardCombo.make cards t).components.map List.length).sum =
        cards.length) ∧
    (∀ c ∈ cards, ∃ comp ∈ (CardCombo.make cards t).components, c ∈ comp) ∧
    ((CardCombo.make cards t).components.Pairwise List.Disjoint) ∧
    (∀ comp ∈ (CardCombo.make cards t).components, comp.Nodup) := by
  have hperm : ((CardCombo.make cards t).components).flatten.Perm cards :=
    detect_components_perm t cards hnd
  have hflnd : ((CardCombo.make cards t).components).flatten.Nodup :=
    hperm.nodup_iff.mpr hnd
  have hnj := List.nodup_flatten.mp hflnd
  refine ⟨?_, ?_, hnj.2, hnj.1⟩
  · exact (List.length_flatten _).symm.trans hperm.length_eq
  · intro c hc
    exact List.mem_flatten.mp (hperm.symm.subset hc)

theorem C6_components_partition_witness :
    ([Card.ord .hearts .r5 0, Card.ord .hearts .r5 1,
      Card.ord .clubs .r3 0] ≠ []) ∧
    ([Card.ord .hearts .r5 0, Card.ord .hearts .r5 1,
      Card.ord .clubs .r3 0].Nodup) ∧
    ((((CardCombo.make
        [Card.ord .hearts .r5 0, Card.ord .hearts .r5 1,
         Card.ord .clubs .r3 0] ⟨.spades, .r2⟩).components.map
          List.length).sum = 3) ∧
     (∀ c ∈ [Card.ord .hearts .r5 0, Card.ord .hearts .r5 1,
         Card.ord .clubs .r3 0],
       ∃ comp ∈ (CardCombo.make
        [Card.ord .hearts .r5 0, Card.ord .hearts .r5 1,
         Card.ord .clubs .r3 0] ⟨.spades, .r2⟩).components, c ∈ comp) ∧
     ((CardCombo.make
        [Card.ord .hearts .r5 0, Card.ord .hearts .r5 1,
         Card.ord .clubs .r3 0] ⟨.spades, .r2⟩).components.Pairwise
          List.Disjoint) ∧
     (∀ comp ∈ (CardCombo.make
        [Card.ord .hearts .r5 0, Card.ord .hearts .r5 1,
         Card.ord .clubs .r3 0] ⟨.spades, .r2⟩).components, comp.Nodup)) :=
  ⟨by decide, by decide,
    C6_components_partition ⟨.spades, .r2⟩
      [Card.ord .hearts .r5 0, Card.ord .hearts .r5 1, Card.ord .clubs .r3 0]
      (by decide) (by decide)⟩
